import Mathlib

/-!
# Reconciliation core of the IAM synchronizer (`handler/core.go`)

A shallow embedding of `getIamResources`, `diffAndSyncInstances`, `diffAndSync`,
`diffAndSyncCore`, `generateCMDBResourceKey` and `generateIAMResourceKey`.

* Go strings are modelled by Lean strings; `strings.HasPrefix` and string equality are
  taken on the character sequence (for well-formed UTF-8 this agrees with the byte-wise
  comparison of Go).
* The IAM capability (`ih.authManager.Authorize`) is a record of state-passing functions
  over an arbitrary state type `σ`, so every deterministic behaviour of the remote side,
  including one that changes from call to call, is an instance.
* Every function that talks to IAM returns a `Run`: how the Go function ended, the
  calls it issued in chronological order, and the final IAM state.
* Logging (`blog.*`) has no effect on results and is left out.
-/

set_option linter.unusedVariables false

namespace AuthSync

/-! ## Data model -/

/-- Modelled from the spec: one layer `(type, id, name)` of `authmeta.BackendResource`,
whose declaration is outside this file. -/
structure Layer where
  ResourceType : String
  ResourceID : String
  ResourceName : String
deriving DecidableEq, Repr

/-- Modelled from the spec: `authmeta.BackendResource`, an ordered layer sequence
(a Go slice of layers; the leaf is the last element). -/
abbrev BackendResource := List Layer

/-- Modelled from the spec: `authcenter.RscTypeAndID`, one `(type, id)` pair of a
canonical resource-id path. -/
structure RscTypeAndID where
  ResourceType : String
  ResourceID : String
deriving DecidableEq, Repr

/-- Modelled from the spec: `authcenter.ScopeInfo`, the `(scope-type, scope-id)` pair. -/
structure ScopeInfo where
  ScopeType : String
  ScopeID : String
deriving DecidableEq, Repr

/-- Modelled from the spec: `authcenter.ResourceEntity`, the canonical resource a dry run
returns: resource type, scope (the embedded `ScopeInfo`) and resource-id path. -/
structure ResourceEntity where
  ResourceType : String
  ScopeType : String
  ScopeID : String
  ResourceName : String
  ResourceID : List RscTypeAndID
deriving DecidableEq, Repr

/-- Modelled from the spec: `authcenter.RegisterInfo`, the dry-run result structure; only
its `Resources` field is read by the core. -/
structure RegisterInfo where
  Resources : List ResourceEntity
deriving DecidableEq, Repr

/-- A Go `error` value, identified with its message. -/
abbrev Err := String

/-- The value pair `(*RegisterInfo, error)` returned by `DryRunRegisterResource`:
`none` in the first component is the nil pointer, `none` in the second is the nil error. -/
abbrev DryRunReply := Option RegisterInfo × Option Err

/-- The IAM capability `ih.authManager.Authorize` as the core uses it, over IAM states `σ`.
`ρ` is `authmeta.ResourceAttribute`, `η` is `http.Header`, `κ` is
`authcenter.SearchCondition`; none of them is inspected by the core. -/
structure Authorize (σ ρ η κ : Type) where
  ListResources : σ → Option ρ → (List BackendResource × Option Err) × σ
  RawListResources : σ → η → κ → (List BackendResource × Option Err) × σ
  DryRunRegisterResource : σ → List ρ → DryRunReply × σ
  RegisterResource : σ → List ρ → Option Err × σ
  RawDeregisterResource : σ → ScopeInfo → List BackendResource → Option Err × σ

/-- One call issued to the IAM capability, with its arguments. -/
inductive Call (ρ η κ : Type) where
  | ListResources (ra : Option ρ)
  | RawListResources (header : η) (cond : κ)
  | DryRunRegisterResource (rs : List ρ)
  | RegisterResource (rs : List ρ)
  | RawDeregisterResource (scope : ScopeInfo) (rs : List BackendResource)
deriving DecidableEq, Repr

/-- How a Go function of type `... error` ends: it returns an error value (`none` is nil),
or the goroutine panics on a nil-pointer dereference. -/
inductive Outcome where
  | returned (err : Option Err)
  | panicked
deriving DecidableEq, Repr

/-- Result of running one entry point: outcome, calls issued (oldest first), final state. -/
structure Run (σ ρ η κ : Type) where
  outcome : Outcome
  calls : List (Call ρ η κ)
  state : σ

/-! ## Key codec -/

/-- The Go call `fmt.Sprintf("%s:%s", t, i)`. -/
def sprintfTypeID (t i : String) : String := t ++ ":" ++ i

/-- The Go library function `strings.Join(elems, sep)`: the first element, then each further
element preceded by the separator. -/
def stringsJoin (elems : List String) (sep : String) : String :=
  match elems with
  | [] => ""
  | e :: rest => rest.foldl (fun b s => b ++ sep ++ s) e

/-- The Go library function `strings.HasPrefix(s, p)`. -/
def stringsHasPrefix (s p : String) : Bool := p.data.isPrefixOf s.data

/-- `generateCMDBResourceKey`: the range loop appends `type:id` for each element of the
resource-id path, then joins with `-`. -/
def generateCMDBResourceKey (resource : ResourceEntity) : String :=
  let resourcesIDs := resource.ResourceID.foldl
    (fun acc resourceID => acc ++ [sprintfTypeID resourceID.ResourceType resourceID.ResourceID]) []
  stringsJoin resourcesIDs "-"

/-- `generateIAMResourceKey`: the range loop appends `type:id` for each layer, then joins
with `-`. -/
def generateIAMResourceKey (iamResource : BackendResource) : String :=
  let resourcesIDs := iamResource.foldl
    (fun acc iamLayer => acc ++ [sprintfTypeID iamLayer.ResourceType iamLayer.ResourceID]) []
  stringsJoin resourcesIDs "-"

/-! ## The reconciler -/

/-- A Go `map[string]V`: `none` is an absent key. -/
abbrev GoMap (V : Type) := String → Option V

/-- The map assignment `m[k] = v`. -/
def GoMap.set {V : Type} (m : GoMap V) (k : String) (v : V) : GoMap V :=
  fun k2 => if k2 = k then some v else m k2

/-- The first loop of `diffAndSyncCore` (lines 111-118): every remote resource gets hit
count 0 in `iamResourceKeyMap` and is stored in `iamResourceMap` under its key. -/
def initMaps : List BackendResource → GoMap Nat × GoMap BackendResource →
    GoMap Nat × GoMap BackendResource
  | [], maps => maps
  | iamResource :: rest, maps =>
    let key := generateIAMResourceKey iamResource
    initMaps rest (maps.1.set key 0, maps.2.set key iamResource)

/-- State of the classification loop of `diffAndSyncCore` when it stops. `exit` is `some o`
when the loop body left the function (an error return or a panic), `none` when the loop
ran to its end. -/
structure LoopResult (σ ρ η κ : Type) where
  exit : Option Outcome
  state : σ
  calls : List (Call ρ η κ)
  scope : ScopeInfo
  iamResourceKeyMap : GoMap Nat
  needRegister : List ρ

/-- The second loop of `diffAndSyncCore` (lines 120-142), one iteration per desired
resource. A reply with a nil error and a nil result makes `targetResource.Resources`
(line 126) dereference nil. The hit counter is a Go `int`; it is incremented at most
once per element of `resources`, so it stays below `2^63` and the natural number is
exact. -/
def classify {σ ρ η κ : Type} (A : Authorize σ ρ η κ) :
    List ρ → σ → ScopeInfo → GoMap Nat → List ρ → LoopResult σ ρ η κ
  | [], s, scope, iamResourceKeyMap, needRegister =>
    ⟨none, s, [], scope, iamResourceKeyMap, needRegister⟩
  | resource :: rest, s, scope, iamResourceKeyMap, needRegister =>
    let reply := A.DryRunRegisterResource s [resource]
    let call : Call ρ η κ := Call.DryRunRegisterResource [resource]
    match reply.1 with
    | (_, some err) =>
      ⟨some (Outcome.returned (some err)), reply.2, [call], scope, iamResourceKeyMap,
        needRegister⟩
    | (none, none) =>
      ⟨some Outcome.panicked, reply.2, [call], scope, iamResourceKeyMap, needRegister⟩
    | (some targetResource, none) =>
      let r :=
        match targetResource.Resources with
        | [target] =>
          let scope1 : ScopeInfo := ⟨target.ScopeType, target.ScopeID⟩
          let resourceKey := generateCMDBResourceKey target
          match iamResourceKeyMap resourceKey with
          | some n =>
            classify A rest reply.2 scope1 (iamResourceKeyMap.set resourceKey (n + 1))
              needRegister
          | none =>
            classify A rest reply.2 scope1 iamResourceKeyMap (needRegister ++ [resource])
        | _ => classify A rest reply.2 scope iamResourceKeyMap needRegister
      { r with calls := call :: r.calls }

/-- The lookup `iamResourceKeyMap[resourceKey]` of line 169: the zero value for an absent
key. -/
def hitCount (iamResourceKeyMap : GoMap Nat) (resourceKey : String) : Nat :=
  (iamResourceKeyMap resourceKey).getD 0

/-- The register step of `diffAndSyncCore` (lines 147-155): one `RegisterResource` call when
`needRegister` is non-empty; its error is only logged. Returns the calls issued and the
new IAM state. -/
def registerStep {σ ρ η κ : Type} (A : Authorize σ ρ η κ) (s : σ) (needRegister : List ρ) :
    List (Call ρ η κ) × σ :=
  if needRegister.length > 0 then
    ([Call.RegisterResource needRegister], (A.RegisterResource s needRegister).2)
  else ([], s)

/-- The deregister step of `diffAndSyncCore` (lines 157-183): the two early returns, the
loop over `iamResources` collecting the resources whose key has hit count 0, and at most
one `RawDeregisterResource` call whose error is only logged. Every path returns nil.
Returns the calls issued and the new IAM state. -/
def deregisterStep {σ ρ η κ : Type} (A : Authorize σ ρ η κ) (s : σ)
    (iamResources : List BackendResource) (resources : List ρ) (skipDeregister : Bool)
    (scope : ScopeInfo) (iamResourceKeyMap : GoMap Nat) : List (Call ρ η κ) × σ :=
  if skipDeregister = true then ([], s)
  else if resources.length = 0 then ([], s)
  else
    let needDeregister := iamResources.filter
      (fun iamResource =>
        hitCount iamResourceKeyMap (generateIAMResourceKey iamResource) = 0)
    if needDeregister.length ≠ 0 then
      ([Call.RawDeregisterResource scope needDeregister],
        (A.RawDeregisterResource s scope needDeregister).2)
    else ([], s)

/-- `diffAndSyncCore` (lines 85-184). `IsRelatedToResourceID` is the predicate of package
`authcenter`, taken as a parameter. `taskName` is only logged and `iamIDPrefix` is not
used by the body. -/
def diffAndSyncCore {σ ρ η κ : Type} (A : Authorize σ ρ η κ)
    (IsRelatedToResourceID : String → Bool) (s : σ)
    (taskName : String) (iamResources : List BackendResource) (iamIDPrefix : String)
    (resources : List ρ) (skipDeregister : Bool) : Run σ ρ η κ :=
  let batch := A.DryRunRegisterResource s resources
  let batchCall : Call ρ η κ := Call.DryRunRegisterResource resources
  match batch.1 with
  | (_, some err) => ⟨Outcome.returned none, [batchCall], batch.2⟩
  | (none, none) =>
    ⟨Outcome.returned (some "dry run result in unexpected nil"), [batchCall], batch.2⟩
  | (some dryRunResources, none) =>
    match dryRunResources.Resources with
    | [] => ⟨Outcome.returned none, [batchCall], batch.2⟩
    | first :: _ =>
      if IsRelatedToResourceID first.ResourceType then
        ⟨Outcome.returned none, [batchCall], batch.2⟩
      else
        let maps := initMaps iamResources (fun _ => none, fun _ => none)
        let loop := classify A resources batch.2 ⟨"", ""⟩ maps.1 []
        match loop.exit with
        | some o => ⟨o, batchCall :: loop.calls, loop.state⟩
        | none =>
          let reg := registerStep A loop.state loop.needRegister
          let dereg := deregisterStep A reg.2 iamResources resources skipDeregister
            loop.scope loop.iamResourceKeyMap
          ⟨Outcome.returned none, batchCall :: (loop.calls ++ reg.1 ++ dereg.1), dereg.2⟩

/-- The filtering loop of `getIamResources` (lines 35-43): resources without layers are
skipped (`getLast?` is `none` exactly when `len(iamResource) == 0`), the others are kept
when the `ResourceID` of the last layer has the given prefix. -/
def getIamResources.realResources (iamIDPrefix : String) :
    List BackendResource → List BackendResource → List BackendResource
  | [], realResources => realResources
  | iamResource :: rest, realResources =>
    match iamResource.getLast? with
    | none => getIamResources.realResources iamIDPrefix rest realResources
    | some leaf =>
      if stringsHasPrefix leaf.ResourceID iamIDPrefix then
        getIamResources.realResources iamIDPrefix rest (realResources ++ [iamResource])
      else
        getIamResources.realResources iamIDPrefix rest realResources

/-- `getIamResources` (lines 27-46): the listing call and its filter. The result is the
Go pair `([]BackendResource, error)` together with the calls issued and the new state. -/
def getIamResources {σ ρ η κ : Type} (A : Authorize σ ρ η κ) (s : σ)
    (taskName : String) (ra : Option ρ) (iamIDPrefix : String) :
    (List BackendResource × Option Err) × List (Call ρ η κ) × σ :=
  let listed := A.ListResources s ra
  match listed.1.2 with
  | some err => (([], some err), [Call.ListResources ra], listed.2)
  | none =>
    ((getIamResources.realResources iamIDPrefix listed.1.1 [], none),
      [Call.ListResources ra], listed.2)

/-- The filtering loop of `diffAndSyncInstances` (lines 58-66). -/
def diffAndSyncInstances.realResources (iamIDPrefix : String) :
    List BackendResource → List BackendResource → List BackendResource
  | [], realResources => realResources
  | iamResource :: rest, realResources =>
    match iamResource.getLast? with
    | none => diffAndSyncInstances.realResources iamIDPrefix rest realResources
    | some leaf =>
      if stringsHasPrefix leaf.ResourceID iamIDPrefix then
        diffAndSyncInstances.realResources iamIDPrefix rest (realResources ++ [iamResource])
      else
        diffAndSyncInstances.realResources iamIDPrefix rest realResources

/-- `diffAndSyncInstances` (lines 49-71). -/
def diffAndSyncInstances {σ ρ η κ : Type} (A : Authorize σ ρ η κ)
    (IsRelatedToResourceID : String → Bool) (s : σ)
    (header : η) (taskName : String) (searchCondition : κ) (iamIDPrefix : String)
    (resources : List ρ) (skipDeregister : Bool) : Run σ ρ η κ :=
  let listed := A.RawListResources s header searchCondition
  let listCall : Call ρ η κ := Call.RawListResources header searchCondition
  match listed.1.2 with
  | some err => ⟨Outcome.returned (some err), [listCall], listed.2⟩
  | none =>
    let realResources := diffAndSyncInstances.realResources iamIDPrefix listed.1.1 []
    let r := diffAndSyncCore A IsRelatedToResourceID listed.2 taskName realResources
      iamIDPrefix resources skipDeregister
    { r with calls := listCall :: r.calls }

/-- `diffAndSync` (lines 73-83); a listing error is wrapped by `fmt.Errorf`. -/
def diffAndSync {σ ρ η κ : Type} (A : Authorize σ ρ η κ)
    (IsRelatedToResourceID : String → Bool) (s : σ)
    (taskName : String) (ra : Option ρ) (iamIDPrefix : String)
    (resources : List ρ) (skipDeregister : Bool) : Run σ ρ η κ :=
  let got := getIamResources A s taskName ra iamIDPrefix
  match got.1.2 with
  | some err => ⟨Outcome.returned (some ("get iam resources failed, err: " ++ err)),
      got.2.1, got.2.2⟩
  | none =>
    let r := diffAndSyncCore A IsRelatedToResourceID got.2.2 taskName got.1.1
      iamIDPrefix resources skipDeregister
    { r with calls := got.2.1 ++ r.calls }

/-! ## Notions used to state the properties -/

/-- The gates of lines 88-106 on the reply of the batch dry run: no error, a non-nil
result, at least one canonical, and a first canonical whose type is not flagged by
`IsRelatedToResourceID`. -/
def passesGates (IsRelatedToResourceID : String → Bool) (reply : DryRunReply) : Bool :=
  match reply with
  | (some info, none) =>
    match info.Resources with
    | first :: _ => !IsRelatedToResourceID first.ResourceType
    | [] => false
  | _ => false

/-- The classification loop as `diffAndSyncCore` starts it (lines 108-120): from the IAM
state left by the batch dry run, with the zero-value scope, the hit map of the remote
list and an empty `needRegister`. -/
def coreLoop {σ ρ η κ : Type} (A : Authorize σ ρ η κ) (s : σ)
    (iamResources : List BackendResource) (resources : List ρ) : LoopResult σ ρ η κ :=
  classify A resources (A.DryRunRegisterResource s resources).2 ⟨"", ""⟩
    (initMaps iamResources (fun _ => none, fun _ => none)).1 []

/-- The `(type, id)` pairs of the layers of a backend resource, names dropped. -/
def layerPath (b : BackendResource) : List (String × String) :=
  b.map (fun l => (l.ResourceType, l.ResourceID))

/-- The `(type, id)` pairs of the resource-id path of a canonical resource. -/
def idPath (c : ResourceEntity) : List (String × String) :=
  c.ResourceID.map (fun r => (r.ResourceType, r.ResourceID))

/-- The key format as the specification words it: `type1:id1-type2:id2-…-typeN:idN`, the
empty string for the empty path. -/
def pathKey : List (String × String) → String
  | [] => ""
  | [(t, i)] => t ++ ":" ++ i
  | (t, i) :: rest => t ++ ":" ++ i ++ "-" ++ pathKey rest

/-- No type and no id of the path contains one of the delimiters `:` and `-`. -/
def DelimiterFree (p : List (String × String)) : Prop :=
  ∀ x ∈ p, ':' ∉ x.1.data ∧ '-' ∉ x.1.data ∧ ':' ∉ x.2.data ∧ '-' ∉ x.2.data

/-- No type of the path contains `:` and no id of the path contains `-`: the first `:` of
a `type:id` piece ends the type and the first `-` after it ends the id. -/
def TypeIdSeparated (p : List (String × String)) : Prop :=
  ∀ x ∈ p, ':' ∉ x.1.data ∧ '-' ∉ x.2.data

/-- The remote filter as the specification words it (step R0): the layer sequence is
non-empty and the id of the leaf, its last layer, starts with `iamIDPrefix`. -/
def LeafHasPrefix (iamIDPrefix : String) (b : BackendResource) : Prop :=
  b ≠ [] ∧ ∃ leaf, b.getLast? = some leaf ∧ iamIDPrefix.data <+: leaf.ResourceID.data

/-- The replies of the per-item dry runs of line 121, one per desired item, as IAM gives
them when the calls are issued one after the other starting in state `s`. The loop stops
at the first reply it cannot go on from; the replies listed after that one are those IAM
would have given. -/
def itemReplies {σ ρ η κ : Type} (A : Authorize σ ρ η κ) : σ → List ρ → List DryRunReply
  | _, [] => []
  | s, resource :: rest =>
    (A.DryRunRegisterResource s [resource]).1 ::
      itemReplies A (A.DryRunRegisterResource s [resource]).2 rest

/-- The IAM state after the per-item dry runs of the whole list. -/
def stateAfterItems {σ ρ η κ : Type} (A : Authorize σ ρ η κ) : σ → List ρ → σ
  | s, [] => s
  | s, resource :: rest => stateAfterItems A (A.DryRunRegisterResource s [resource]).2 rest

/-- The canonical of a dry run that succeeded with exactly one canonical. -/
def singleCanonical (reply : DryRunReply) : Option ResourceEntity :=
  match reply with
  | (some info, none) =>
    match info.Resources with
    | [c] => some c
    | _ => none
  | _ => none

/-- No per-item dry run returns an error. -/
def noItemFails (replies : List DryRunReply) : Bool :=
  replies.all (fun r => r.2.isNone)

/-- No per-item dry run returns a nil result together with a nil error. -/
def noNilReply (replies : List DryRunReply) : Bool :=
  replies.all (fun r => r.1.isSome || r.2.isSome)

/-- A desired item is unknown to a key set when its dry run returned exactly one canonical
whose key is not in the set. -/
def isUnknownItem (known : String → Bool) (reply : DryRunReply) : Bool :=
  match singleCanonical reply with
  | some c => !known (generateCMDBResourceKey c)
  | none => false

/-- A reply the loop can go on from: a nil error and a non-nil result. -/
def goodReply (reply : DryRunReply) : Bool := reply.1.isSome && reply.2.isNone

/-- A desired item is new when its dry run returned exactly one canonical whose key
differs from the key of every remote resource. -/
def isNewItem (remote : List BackendResource) (reply : DryRunReply) : Bool :=
  match singleCanonical reply with
  | some c => remote.all (fun b => generateCMDBResourceKey c != generateIAMResourceKey b)
  | none => false

/-- The list `L` of C5: the desired items that are new, in input order, duplicates kept. -/
def toRegister {ρ : Type} (remote : List BackendResource) (desired : List ρ)
    (replies : List DryRunReply) : List ρ :=
  ((desired.zip replies).filter (fun x => isNewItem remote x.2)).map Prod.fst

/-- The hit count of a key: the number of desired items whose dry run returned exactly one
canonical with that key. -/
def hitsOf (replies : List DryRunReply) (key : String) : Nat :=
  replies.countP (fun r =>
    match singleCanonical r with
    | some c => generateCMDBResourceKey c = key
    | none => false)

/-- The list `M` of C6: the remote resources whose key has hit count 0, in order. -/
def toDeregister (remote : List BackendResource) (replies : List DryRunReply) :
    List BackendResource :=
  remote.filter (fun b => hitsOf replies (generateIAMResourceKey b) = 0)

/-- The scope a deregister call is expected to carry: that of the canonical of the last
desired item, in input order, whose dry run returned exactly one canonical, and the
zero-value scope when no item has such a dry run. -/
def scopeOfLastCanonical (replies : List DryRunReply) : ScopeInfo :=
  match (replies.filterMap singleCanonical).getLast? with
  | some c => ⟨c.ScopeType, c.ScopeID⟩
  | none => ⟨"", ""⟩

/-- The scope written last by the loop (lines 130-131): that of the canonical of the last
item whose dry run returned exactly one canonical, the given scope when there is none. -/
def lastScope (scope : ScopeInfo) : List DryRunReply → ScopeInfo
  | [] => scope
  | r :: rest =>
    match singleCanonical r with
    | some c => lastScope ⟨c.ScopeType, c.ScopeID⟩ rest
    | none => lastScope scope rest

/-- The replies of the per-item dry runs of one run of `diffAndSyncCore`: they start in
the IAM state left by the batch dry run. -/
def coreReplies {σ ρ η κ : Type} (A : Authorize σ ρ η κ) (s : σ) (desired : List ρ) :
    List DryRunReply :=
  itemReplies A (A.DryRunRegisterResource s desired).2 desired

/-! ## Concrete scenarios

Desired resources are host ids (`ρ := String`); IAM is a fixed script over a trivial
state. -/

/-- A capability whose listing and dry-run replies are given functions and whose register
and deregister calls succeed. -/
def scriptedIAM (listing : List BackendResource × Option Err)
    (dryRun : List String → DryRunReply) : Authorize Unit String Unit Unit where
  ListResources := fun s _ => (listing, s)
  RawListResources := fun s _ _ => (listing, s)
  DryRunRegisterResource := fun s rs => (dryRun rs, s)
  RegisterResource := fun s _ => (none, s)
  RawDeregisterResource := fun s _ _ => (none, s)

/-- The canonical resource of host `id` in business 1: path `biz:1-host:id`. -/
def hostEntity (id : String) : ResourceEntity :=
  ⟨"host", "biz", "1", "", [⟨"biz", "1"⟩, ⟨"host", id⟩]⟩

/-- The backend resource of host `id` in business 1: layers `biz:1`, `host:id`. -/
def hostBackend (id : String) : BackendResource :=
  [⟨"biz", "1", "business one"⟩, ⟨"host", id, "a host"⟩]

/-- The canonical resource of a host whose ids carry the IAM id layout of the
specification, `cmdb:biz:1` and `cmdb:biz:1:x`. -/
def layoutHostEntity : ResourceEntity :=
  ⟨"host", "biz", "1", "", [⟨"biz", "cmdb:biz:1"⟩, ⟨"host", "cmdb:biz:1:x"⟩]⟩

/-- The backend resource of the same host. -/
def layoutHostBackend : BackendResource :=
  [⟨"biz", "cmdb:biz:1", "business one"⟩, ⟨"host", "cmdb:biz:1:x", "a host"⟩]

/-- A dry run that normalises every desired host to its one canonical resource. -/
def dryRunHosts (rs : List String) : DryRunReply :=
  (some ⟨rs.map hostEntity⟩, none)

/-- A dry run that always fails. -/
def dryRunDown (rs : List String) : DryRunReply :=
  (none, some "iam unreachable")

/-- A dry run like `dryRunHosts`, except that the single item `"ghost"` gets a nil result
together with a nil error. -/
def dryRunGhost (rs : List String) : DryRunReply :=
  if rs = ["ghost"] then (none, none) else (some ⟨rs.map hostEntity⟩, none)

/-- No resource type is id-correlated. -/
def relNone (resourceType : String) : Bool := false

/-- The resource type `host` is id-correlated. -/
def relHost (resourceType : String) : Bool := resourceType = "host"

/-- A dry run like `dryRunHosts`, except that the single item `"twin"` is normalised to
two canonicals. -/
def dryRunTwin (rs : List String) : DryRunReply :=
  if rs = ["twin"] then (some ⟨[hostEntity "twin-a", hostEntity "twin-b"]⟩, none)
  else (some ⟨rs.map hostEntity⟩, none)

/-- A dry run like `dryRunHosts`, except that the single item `"blank"` is normalised to
no canonical at all. -/
def dryRunBlank (rs : List String) : DryRunReply :=
  if rs = ["blank"] then (some ⟨[]⟩, none) else (some ⟨rs.map hostEntity⟩, none)

/-- A dry run like `dryRunGhost`, where in addition the single item `"bad"` fails. -/
def dryRunGhostBad (rs : List String) : DryRunReply :=
  if rs = ["ghost"] then (none, none)
  else if rs = ["bad"] then (none, some "normalisation failed")
  else (some ⟨rs.map hostEntity⟩, none)

/-- A capability like `scriptedIAM` whose register and deregister calls fail. -/
def failingIAM (listing : List BackendResource × Option Err)
    (dryRun : List String → DryRunReply) : Authorize Unit String Unit Unit where
  ListResources := fun s _ => (listing, s)
  RawListResources := fun s _ _ => (listing, s)
  DryRunRegisterResource := fun s rs => (dryRun rs, s)
  RegisterResource := fun s _ => (some "register failed", s)
  RawDeregisterResource := fun s _ _ => (some "deregister failed", s)

/-- The backend resource of host `id` in business 1 under a given host name. -/
def namedHostBackend (id name : String) : BackendResource :=
  [⟨"biz", "1", "business one"⟩, ⟨"host", id, name⟩]

/-- The filter of C16 as the property words it: the resources of the list, in order, whose
layer sequence is non-empty and whose last layer has a `ResourceID` starting with `p`. -/
def remoteFilter (rs : List BackendResource) (p : String) : List BackendResource :=
  rs.filter (fun b =>
    match b.reverse with
    | [] => false
    | leaf :: _ => p.data.isPrefixOf leaf.ResourceID.data)

/-- The replies of the per-item dry runs that the loop really receives: up to and
including the first one it cannot go on from. -/
def issuedReplies : List DryRunReply → List DryRunReply
  | [] => []
  | r :: rest => if goodReply r then r :: issuedReplies rest else [r]

/-- How the classification loop is left, read off the replies: the first reply that is an
error makes the function return that error, a nil result with a nil error before any
error makes line 126 panic, and otherwise the loop runs to its end. -/
def loopExit : List DryRunReply → Option Outcome
  | [] => none
  | (_, some e) :: _ => some (Outcome.returned (some e))
  | (none, none) :: _ => some Outcome.panicked
  | (some _, none) :: rest => loopExit rest

/-- The IAM model of the idempotence property (C11): the state is the list of backend
resources IAM holds; listing returns it; a register call succeeds and adds, for each of
its arguments `d`, the resource `stored d`; a deregister call succeeds and removes the
resources it is given; the dry run is a fixed function of its arguments and leaves the
state alone. -/
def truthfulIAM {ρ : Type} (dryRun : List ρ → DryRunReply) (stored : ρ → BackendResource) :
    Authorize (List BackendResource) ρ Unit Unit where
  ListResources := fun S _ => ((S, none), S)
  RawListResources := fun S _ _ => ((S, none), S)
  DryRunRegisterResource := fun S rs => (dryRun rs, S)
  RegisterResource := fun S rs => (none, S ++ rs.map stored)
  RawDeregisterResource := fun S _ bs => (none, S.filter (fun b => decide (b ∉ bs)))

/-! ## Reading a call trace -/

/-- The argument lists of the `RegisterResource` calls of a trace, oldest first. -/
def registerCalls {ρ η κ : Type} : List (Call ρ η κ) → List (List ρ)
  | [] => []
  | Call.RegisterResource rs :: rest => rs :: registerCalls rest
  | _ :: rest => registerCalls rest

/-- The arguments (scope and resources) of the `RawDeregisterResource` calls of a trace,
oldest first. -/
def deregisterCalls {ρ η κ : Type} : List (Call ρ η κ) → List (ScopeInfo × List BackendResource)
  | [] => []
  | Call.RawDeregisterResource scope rs :: rest => (scope, rs) :: deregisterCalls rest
  | _ :: rest => deregisterCalls rest

/-- The argument lists of the `DryRunRegisterResource` calls of a trace, oldest first. -/
def dryRunCalls {ρ η κ : Type} : List (Call ρ η κ) → List (List ρ)
  | [] => []
  | Call.DryRunRegisterResource rs :: rest => rs :: dryRunCalls rest
  | _ :: rest => dryRunCalls rest

/-! ## Basic facts about traces and the classification loop -/

section Lemmas

variable {σ ρ η κ : Type}

theorem registerCalls_append (xs ys : List (Call ρ η κ)) :
    registerCalls (xs ++ ys) = registerCalls xs ++ registerCalls ys := by
  induction xs with
  | nil => rfl
  | cons c xs ih => cases c <;> simp [registerCalls, ih]

theorem deregisterCalls_append (xs ys : List (Call ρ η κ)) :
    deregisterCalls (xs ++ ys) = deregisterCalls xs ++ deregisterCalls ys := by
  induction xs with
  | nil => rfl
  | cons c xs ih => cases c <;> simp [deregisterCalls, ih]

theorem dryRunCalls_append (xs ys : List (Call ρ η κ)) :
    dryRunCalls (xs ++ ys) = dryRunCalls xs ++ dryRunCalls ys := by
  induction xs with
  | nil => rfl
  | cons c xs ih => cases c <;> simp [dryRunCalls, ih]

/-- The classification loop only issues single-item dry runs: no register call. -/
theorem classify_registerCalls (A : Authorize σ ρ η κ) (rs : List ρ) (s : σ)
    (scope : ScopeInfo) (m : GoMap Nat) (nr : List ρ) :
    registerCalls (classify A rs s scope m nr).calls = [] := by
  induction rs generalizing s scope m nr with
  | nil => rfl
  | cons r rest ih =>
    simp only [classify]
    split
    · rfl
    · rfl
    · split
      · split <;> simp [registerCalls, ih]
      · simp [registerCalls, ih]

/-- The classification loop only issues single-item dry runs: no deregister call. -/
theorem classify_deregisterCalls (A : Authorize σ ρ η κ) (rs : List ρ) (s : σ)
    (scope : ScopeInfo) (m : GoMap Nat) (nr : List ρ) :
    deregisterCalls (classify A rs s scope m nr).calls = [] := by
  induction rs generalizing s scope m nr with
  | nil => rfl
  | cons r rest ih =>
    simp only [classify]
    split
    · rfl
    · rfl
    · split
      · split <;> simp [deregisterCalls, ih]
      · simp [deregisterCalls, ih]

end Lemmas

/-- Calls of the register step: one register call with `needRegister` when it is
non-empty, nothing otherwise. -/
theorem registerStep_calls {σ ρ η κ : Type} (A : Authorize σ ρ η κ) (s : σ)
    (needRegister : List ρ) :
    (registerStep A s needRegister : List (Call ρ η κ) × σ).1 =
      if needRegister.isEmpty then [] else [Call.RegisterResource needRegister] := by
  unfold registerStep
  cases needRegister <;> simp

/-- The deregister step issues nothing but at most one deregister call. -/
theorem deregisterStep_calls {σ ρ η κ : Type} (A : Authorize σ ρ η κ) (s : σ)
    (remote : List BackendResource) (desired : List ρ) (skipDeregister : Bool)
    (scope : ScopeInfo) (m : GoMap Nat) :
    (deregisterStep A s remote desired skipDeregister scope m : List (Call ρ η κ) × σ).1 =
      if (!skipDeregister && !desired.isEmpty &&
          !(remote.filter (fun b => hitCount m (generateIAMResourceKey b) = 0)).isEmpty)
          = true then
        [Call.RawDeregisterResource scope
          (remote.filter (fun b => hitCount m (generateIAMResourceKey b) = 0))]
      else [] := by
  unfold deregisterStep
  cases skipDeregister
  · cases desired
    · simp
    · cases h : remote.filter (fun b => hitCount m (generateIAMResourceKey b) = 0) with
      | nil => simp [h]
      | cons b bs => simp [h]
  · simp

/-- When the batch dry run does not pass the gates of lines 88-106, the run consists of
the batch dry run alone. -/
theorem core_gated {σ ρ η κ : Type} (A : Authorize σ ρ η κ) (rel : String → Bool)
    (s : σ) (taskName : String) (remote : List BackendResource) (iamIDPrefix : String)
    (desired : List ρ) (skipDeregister : Bool)
    (h : passesGates rel (A.DryRunRegisterResource s desired).1 = false) :
    (diffAndSyncCore A rel s taskName remote iamIDPrefix desired skipDeregister).calls
      = [Call.DryRunRegisterResource desired] := by
  unfold diffAndSyncCore
  rcases hrep : (A.DryRunRegisterResource s desired).1 with ⟨info, err⟩
  rw [hrep] at h
  cases err with
  | some e => simp [hrep]
  | none =>
    cases info with
    | none => simp [hrep]
    | some info =>
      cases hres : info.Resources with
      | nil => simp [hrep, hres]
      | cons first others =>
        have hrel : rel first.ResourceType = true := by
          simpa [passesGates, hres] using h
        simp [hrep, hres, hrel]

/-- When the batch dry run passes the gates, the run is the classification loop followed,
if the loop ran to its end, by the register step and the deregister step. -/
theorem core_classified {σ ρ η κ : Type} (A : Authorize σ ρ η κ) (rel : String → Bool)
    (s : σ) (taskName : String) (remote : List BackendResource) (iamIDPrefix : String)
    (desired : List ρ) (skipDeregister : Bool)
    (h : passesGates rel (A.DryRunRegisterResource s desired).1 = true) :
    diffAndSyncCore A rel s taskName remote iamIDPrefix desired skipDeregister =
      match (coreLoop A s remote desired).exit with
      | some o => ⟨o, Call.DryRunRegisterResource desired :: (coreLoop A s remote desired).calls,
          (coreLoop A s remote desired).state⟩
      | none =>
        ⟨Outcome.returned none,
          Call.DryRunRegisterResource desired :: ((coreLoop A s remote desired).calls ++
            (registerStep A (coreLoop A s remote desired).state
              (coreLoop A s remote desired).needRegister).1 ++
            (deregisterStep A
              (registerStep A (coreLoop A s remote desired).state
                (coreLoop A s remote desired).needRegister).2
              remote desired skipDeregister (coreLoop A s remote desired).scope
              (coreLoop A s remote desired).iamResourceKeyMap).1),
          (deregisterStep A
              (registerStep A (coreLoop A s remote desired).state
                (coreLoop A s remote desired).needRegister).2
              remote desired skipDeregister (coreLoop A s remote desired).scope
              (coreLoop A s remote desired).iamResourceKeyMap).2⟩ := by
  unfold diffAndSyncCore coreLoop
  rcases hrep : (A.DryRunRegisterResource s desired).1 with ⟨info, err⟩
  rw [hrep] at h
  cases err with
  | some e => simp [passesGates] at h
  | none =>
    cases info with
    | none => simp [passesGates] at h
    | some info =>
      cases hres : info.Resources with
      | nil => simp [passesGates, hres] at h
      | cons first others =>
        have hrel : rel first.ResourceType = false := by
          simpa [passesGates, hres] using h
        simp [hrep, hres, hrel]

section CoreTrace

variable {σ ρ η κ : Type}

theorem coreLoop_registerCalls (A : Authorize σ ρ η κ) (s : σ)
    (remote : List BackendResource) (desired : List ρ) :
    registerCalls (coreLoop A s remote desired).calls = [] :=
  classify_registerCalls A desired _ _ _ _

theorem coreLoop_deregisterCalls (A : Authorize σ ρ η κ) (s : σ)
    (remote : List BackendResource) (desired : List ρ) :
    deregisterCalls (coreLoop A s remote desired).calls = [] :=
  classify_deregisterCalls A desired _ _ _ _

theorem registerStep_registerCalls (A : Authorize σ ρ η κ) (s : σ) (nr : List ρ) :
    registerCalls (registerStep A s nr).1 = if nr.isEmpty then [] else [nr] := by
  rw [registerStep_calls]; split <;> simp [registerCalls]

theorem registerStep_deregisterCalls (A : Authorize σ ρ η κ) (s : σ) (nr : List ρ) :
    deregisterCalls (registerStep A s nr).1 = [] := by
  rw [registerStep_calls]; split <;> simp [deregisterCalls]

theorem deregisterStep_registerCalls (A : Authorize σ ρ η κ) (s : σ)
    (remote : List BackendResource) (desired : List ρ) (skipDeregister : Bool)
    (scope : ScopeInfo) (m : GoMap Nat) :
    registerCalls (deregisterStep A s remote desired skipDeregister scope m).1 = [] := by
  rw [deregisterStep_calls]; split <;> simp [registerCalls]

theorem deregisterStep_deregisterCalls (A : Authorize σ ρ η κ) (s : σ)
    (remote : List BackendResource) (desired : List ρ) (skipDeregister : Bool)
    (scope : ScopeInfo) (m : GoMap Nat) :
    deregisterCalls (deregisterStep A s remote desired skipDeregister scope m).1 =
      if (!skipDeregister && !desired.isEmpty &&
          !(remote.filter (fun b => hitCount m (generateIAMResourceKey b) = 0)).isEmpty)
          = true then
        [(scope, remote.filter (fun b => hitCount m (generateIAMResourceKey b) = 0))]
      else [] := by
  rw [deregisterStep_calls]; split <;> simp [deregisterCalls]

/-- The register calls of one run of the core, in terms of the classification loop. -/
theorem core_registerCalls (A : Authorize σ ρ η κ) (rel : String → Bool)
    (s : σ) (taskName : String) (remote : List BackendResource) (iamIDPrefix : String)
    (desired : List ρ) (skipDeregister : Bool) :
    registerCalls
        (diffAndSyncCore A rel s taskName remote iamIDPrefix desired skipDeregister).calls =
      if (passesGates rel (A.DryRunRegisterResource s desired).1 &&
          (coreLoop A s remote desired).exit.isNone &&
          !(coreLoop A s remote desired).needRegister.isEmpty) = true then
        [(coreLoop A s remote desired).needRegister]
      else [] := by
  by_cases hg : passesGates rel (A.DryRunRegisterResource s desired).1 = true
  · rw [core_classified A rel s taskName remote iamIDPrefix desired skipDeregister hg]
    cases hexit : (coreLoop A s remote desired).exit with
    | some o => simp [registerCalls, coreLoop_registerCalls]
    | none =>
      simp only [registerCalls, registerCalls_append, coreLoop_registerCalls,
        registerStep_registerCalls, deregisterStep_registerCalls, hg]
      cases (coreLoop A s remote desired).needRegister <;> simp
  · have hg2 : passesGates rel (A.DryRunRegisterResource s desired).1 = false := by
      simpa using hg
    rw [core_gated A rel s taskName remote iamIDPrefix desired skipDeregister hg2]
    simp [registerCalls, hg2]

/-- The deregister calls of one run of the core, in terms of the classification loop. -/
theorem core_deregisterCalls (A : Authorize σ ρ η κ) (rel : String → Bool)
    (s : σ) (taskName : String) (remote : List BackendResource) (iamIDPrefix : String)
    (desired : List ρ) (skipDeregister : Bool) :
    deregisterCalls
        (diffAndSyncCore A rel s taskName remote iamIDPrefix desired skipDeregister).calls =
      if (passesGates rel (A.DryRunRegisterResource s desired).1 &&
          (coreLoop A s remote desired).exit.isNone &&
          !skipDeregister && !desired.isEmpty &&
          !(remote.filter (fun b => hitCount (coreLoop A s remote desired).iamResourceKeyMap
            (generateIAMResourceKey b) = 0)).isEmpty) = true then
        [((coreLoop A s remote desired).scope,
          remote.filter (fun b => hitCount (coreLoop A s remote desired).iamResourceKeyMap
            (generateIAMResourceKey b) = 0))]
      else [] := by
  by_cases hg : passesGates rel (A.DryRunRegisterResource s desired).1 = true
  · rw [core_classified A rel s taskName remote iamIDPrefix desired skipDeregister hg]
    cases hexit : (coreLoop A s remote desired).exit with
    | some o => simp [deregisterCalls, coreLoop_deregisterCalls]
    | none =>
      simp only [deregisterCalls, deregisterCalls_append, coreLoop_deregisterCalls,
        registerStep_deregisterCalls, deregisterStep_deregisterCalls, hg,
        Option.isNone_none, Bool.true_and, List.nil_append]
  · have hg2 : passesGates rel (A.DryRunRegisterResource s desired).1 = false := by
      simpa using hg
    rw [core_gated A rel s taskName remote iamIDPrefix desired skipDeregister hg2]
    simp [deregisterCalls, hg2]

end CoreTrace

/-! ## The classification loop, step by step -/

section Classify

variable {σ ρ η κ : Type}

theorem classify_cons_error (A : Authorize σ ρ η κ) (r : ρ) (rest : List ρ) (s : σ)
    (scope : ScopeInfo) (m : GoMap Nat) (nr : List ρ) (info : Option RegisterInfo) (e : Err)
    (h : (A.DryRunRegisterResource s [r]).1 = (info, some e)) :
    classify A (r :: rest) s scope m nr =
      ⟨some (Outcome.returned (some e)), (A.DryRunRegisterResource s [r]).2,
        [Call.DryRunRegisterResource [r]], scope, m, nr⟩ := by
  simp only [classify, h]

theorem classify_cons_nil (A : Authorize σ ρ η κ) (r : ρ) (rest : List ρ) (s : σ)
    (scope : ScopeInfo) (m : GoMap Nat) (nr : List ρ)
    (h : (A.DryRunRegisterResource s [r]).1 = (none, none)) :
    classify A (r :: rest) s scope m nr =
      ⟨some Outcome.panicked, (A.DryRunRegisterResource s [r]).2,
        [Call.DryRunRegisterResource [r]], scope, m, nr⟩ := by
  simp only [classify, h]

theorem classify_cons_hit (A : Authorize σ ρ η κ) (r : ρ) (rest : List ρ) (s : σ)
    (scope : ScopeInfo) (m : GoMap Nat) (nr : List ρ) (info : RegisterInfo)
    (c : ResourceEntity) (n : Nat)
    (h : (A.DryRunRegisterResource s [r]).1 = (some info, none))
    (hres : info.Resources = [c]) (hm : m (generateCMDBResourceKey c) = some n) :
    classify A (r :: rest) s scope m nr =
      { classify A rest (A.DryRunRegisterResource s [r]).2 ⟨c.ScopeType, c.ScopeID⟩
          (m.set (generateCMDBResourceKey c) (n + 1)) nr with
        calls := Call.DryRunRegisterResource [r] ::
          (classify A rest (A.DryRunRegisterResource s [r]).2 ⟨c.ScopeType, c.ScopeID⟩
            (m.set (generateCMDBResourceKey c) (n + 1)) nr).calls } := by
  simp only [classify, h, hres, hm]

theorem classify_cons_miss (A : Authorize σ ρ η κ) (r : ρ) (rest : List ρ) (s : σ)
    (scope : ScopeInfo) (m : GoMap Nat) (nr : List ρ) (info : RegisterInfo)
    (c : ResourceEntity)
    (h : (A.DryRunRegisterResource s [r]).1 = (some info, none))
    (hres : info.Resources = [c]) (hm : m (generateCMDBResourceKey c) = none) :
    classify A (r :: rest) s scope m nr =
      { classify A rest (A.DryRunRegisterResource s [r]).2 ⟨c.ScopeType, c.ScopeID⟩
          m (nr ++ [r]) with
        calls := Call.DryRunRegisterResource [r] ::
          (classify A rest (A.DryRunRegisterResource s [r]).2 ⟨c.ScopeType, c.ScopeID⟩
            m (nr ++ [r])).calls } := by
  simp only [classify, h, hres, hm]

theorem classify_cons_skip (A : Authorize σ ρ η κ) (r : ρ) (rest : List ρ) (s : σ)
    (scope : ScopeInfo) (m : GoMap Nat) (nr : List ρ) (info : RegisterInfo)
    (h : (A.DryRunRegisterResource s [r]).1 = (some info, none))
    (hres : singleCanonical (some info, none) = none) :
    classify A (r :: rest) s scope m nr =
      { classify A rest (A.DryRunRegisterResource s [r]).2 scope m nr with
        calls := Call.DryRunRegisterResource [r] ::
          (classify A rest (A.DryRunRegisterResource s [r]).2 scope m nr).calls } := by
  simp only [classify, h]
  cases hr : info.Resources with
  | nil => rfl
  | cons c cs =>
    cases cs with
    | nil => simp [singleCanonical, hr] at hres
    | cons c2 cs2 => rfl

theorem singleCanonical_some (info : RegisterInfo) (c : ResourceEntity)
    (h : singleCanonical (some info, none) = some c) : info.Resources = [c] := by
  unfold singleCanonical at h
  cases hr : info.Resources with
  | nil => simp [hr] at h
  | cons c1 cs =>
    cases cs with
    | nil => simp [hr] at h; rw [h]
    | cons c2 cs2 => simp [hr] at h

theorem hitsOf_cons (r : DryRunReply) (rs : List DryRunReply) (k : String) :
    hitsOf (r :: rs) k = hitsOf rs k +
      (match singleCanonical r with
        | some c => if generateCMDBResourceKey c = k then 1 else 0
        | none => 0) := by
  unfold hitsOf
  rw [List.countP_cons]
  cases singleCanonical r with
  | none => simp
  | some c => simp

/-- What the classification loop computes when every reply is a nil error with a non-nil
result: it runs to its end, `needRegister` grows by the items unknown to the key set of
the hit map, every key of the hit map gains its hit count, the scope is the last one
written, and one dry run per item has been issued. -/
theorem classify_complete (A : Authorize σ ρ η κ) (known : String → Bool) (rs : List ρ) :
    ∀ (s : σ) (scope : ScopeInfo) (m : GoMap Nat) (nr : List ρ),
      (∀ k, (m k).isSome = known k) →
      (itemReplies A s rs).all goodReply = true →
      (classify A rs s scope m nr).exit = none ∧
      (classify A rs s scope m nr).needRegister = nr ++
        ((rs.zip (itemReplies A s rs)).filter (fun x => isUnknownItem known x.2)).map
          Prod.fst ∧
      (∀ k, (classify A rs s scope m nr).iamResourceKeyMap k =
        (m k).map (fun n => n + hitsOf (itemReplies A s rs) k)) ∧
      (classify A rs s scope m nr).scope = lastScope scope (itemReplies A s rs) ∧
      (classify A rs s scope m nr).state = stateAfterItems A s rs ∧
      (classify A rs s scope m nr).calls
        = rs.map (fun r => Call.DryRunRegisterResource [r]) := by
  induction rs with
  | nil =>
    intro s scope m nr hk hgood
    refine ⟨rfl, by simp [classify, itemReplies], ?_, rfl, rfl, rfl⟩
    intro k
    cases hmk : m k <;> simp [classify, itemReplies, hitsOf, hmk]
  | cons r rest ih =>
    intro s scope m nr hk hgood
    rcases hrep : (A.DryRunRegisterResource s [r]).1 with ⟨info, err⟩
    simp only [itemReplies, List.all_cons, Bool.and_eq_true, hrep] at hgood
    obtain ⟨hhead, hrest⟩ := hgood
    cases err with
    | some e => simp [goodReply] at hhead
    | none =>
      cases info with
      | none => simp [goodReply] at hhead
      | some info =>
        cases hsc : singleCanonical (some info, none) with
        | none =>
          rw [classify_cons_skip A r rest s scope m nr info hrep hsc]
          obtain ⟨h1, h2, h3, h4, h5, h6⟩ := ih _ scope m nr hk hrest
          refine ⟨h1, ?_, ?_, ?_, ?_, ?_⟩
          · simp [h2, itemReplies, hrep, List.filter_cons, isUnknownItem, hsc]
          · intro k
            simp [h3 k, itemReplies, hrep, hitsOf_cons, hsc]
          · simp [h4, itemReplies, hrep, lastScope, hsc]
          · simp [h5, stateAfterItems]
          · simp [h6]
        | some c =>
          have hres := singleCanonical_some info c hsc
          cases hm : m (generateCMDBResourceKey c) with
          | some n =>
            rw [classify_cons_hit A r rest s scope m nr info c n hrep hres hm]
            have hk2 : ∀ k, ((m.set (generateCMDBResourceKey c) (n + 1)) k).isSome
                = known k := by
              intro k
              unfold GoMap.set
              by_cases hkk : k = generateCMDBResourceKey c
              · rw [if_pos hkk, ← hk k, hkk, hm]; rfl
              · rw [if_neg hkk, hk k]
            have hknown : known (generateCMDBResourceKey c) = true := by
              rw [← hk, hm]; rfl
            obtain ⟨h1, h2, h3, h4, h5, h6⟩ := ih _ ⟨c.ScopeType, c.ScopeID⟩ _ nr hk2 hrest
            refine ⟨h1, ?_, ?_, ?_, ?_, ?_⟩
            · simp [h2, itemReplies, hrep, List.filter_cons, isUnknownItem, hsc, hknown]
            · intro k
              simp only [h3 k, itemReplies, hrep, hitsOf_cons, hsc]
              unfold GoMap.set
              by_cases hkk : k = generateCMDBResourceKey c
              · subst hkk
                simp [hm]
                omega
              · have hkk2 : ¬ generateCMDBResourceKey c = k := fun h => hkk h.symm
                simp [hkk, hkk2]
            · simp [h4, itemReplies, hrep, lastScope, hsc]
            · simp [h5, stateAfterItems]
            · simp [h6]
          | none =>
            rw [classify_cons_miss A r rest s scope m nr info c hrep hres hm]
            have hknown : known (generateCMDBResourceKey c) = false := by
              rw [← hk, hm]; rfl
            obtain ⟨h1, h2, h3, h4, h5, h6⟩ :=
              ih _ ⟨c.ScopeType, c.ScopeID⟩ m (nr ++ [r]) hk hrest
            refine ⟨h1, ?_, ?_, ?_, ?_, ?_⟩
            · simp [h2, itemReplies, hrep, List.filter_cons, isUnknownItem, hsc, hknown]
            · intro k
              simp only [h3 k, itemReplies, hrep, hitsOf_cons, hsc]
              by_cases hkk : generateCMDBResourceKey c = k
              · subst hkk
                simp [hm]
              · simp [hkk]
            · simp [h4, itemReplies, hrep, lastScope, hsc]
            · simp [h5, stateAfterItems]
            · simp [h6]

/-- The classification loop runs to its end exactly when every reply is a nil error with
a non-nil result. -/
theorem classify_exit_isNone (A : Authorize σ ρ η κ) (rs : List ρ) :
    ∀ (s : σ) (scope : ScopeInfo) (m : GoMap Nat) (nr : List ρ),
      (classify A rs s scope m nr).exit.isNone = (itemReplies A s rs).all goodReply := by
  induction rs with
  | nil => intro s scope m nr; rfl
  | cons r rest ih =>
    intro s scope m nr
    rcases hrep : (A.DryRunRegisterResource s [r]).1 with ⟨info, err⟩
    simp only [itemReplies, List.all_cons, hrep]
    cases err with
    | some e =>
      rw [classify_cons_error A r rest s scope m nr info e hrep]
      simp [goodReply]
    | none =>
      cases info with
      | none =>
        rw [classify_cons_nil A r rest s scope m nr hrep]
        simp [goodReply]
      | some info =>
        cases hsc : singleCanonical (some info, none) with
        | none =>
          rw [classify_cons_skip A r rest s scope m nr info hrep hsc]
          simp [goodReply, ih]
        | some c =>
          have hres := singleCanonical_some info c hsc
          cases hm : m (generateCMDBResourceKey c) with
          | some n =>
            rw [classify_cons_hit A r rest s scope m nr info c n hrep hres hm]
            simp [goodReply, ih]
          | none =>
            rw [classify_cons_miss A r rest s scope m nr info c hrep hres hm]
            simp [goodReply, ih]

end Classify

/-! ## Register and deregister calls in terms of the per-item replies -/

section Characterisation

variable {σ ρ η κ : Type}

/-- The hit map after the first loop: hit count 0 for the key of every remote resource. -/
theorem initMaps_keyMap (remote : List BackendResource)
    (maps : GoMap Nat × GoMap BackendResource) (k : String) :
    (initMaps remote maps).1 k =
      if remote.any (fun b => generateIAMResourceKey b = k) then some 0 else maps.1 k := by
  induction remote generalizing maps with
  | nil => simp [initMaps]
  | cons b bs ih =>
    rw [initMaps, ih]
    by_cases h1 : bs.any (fun b => generateIAMResourceKey b = k) = true
    · simp [h1]
    · by_cases h2 : generateIAMResourceKey b = k
      · simp [h1, h2, GoMap.set]
      · have h3 : ¬ k = generateIAMResourceKey b := fun h => h2 h.symm
        simp [h1, h2, h3, GoMap.set]

theorem isNewItem_eq (remote : List BackendResource) (reply : DryRunReply) :
    isNewItem remote reply =
      isUnknownItem (fun k => remote.any (fun b => generateIAMResourceKey b = k)) reply := by
  unfold isNewItem isUnknownItem
  cases singleCanonical reply with
  | none => rfl
  | some c =>
    simp only [List.all_eq_not_any_not]
    congr 2
    funext b
    by_cases h : generateCMDBResourceKey c = generateIAMResourceKey b
    · simp [h]
    · have h2 : ¬ generateIAMResourceKey b = generateCMDBResourceKey c := fun e => h e.symm
      simp [h, h2]

/-- When no reply is a nil result with a nil error, the loop can go on from every reply
exactly when no reply is an error. -/
theorem all_goodReply_of_noNilReply (replies : List DryRunReply)
    (h : noNilReply replies = true) : replies.all goodReply = noItemFails replies := by
  induction replies with
  | nil => rfl
  | cons r rs ih =>
    simp only [noNilReply, List.all_cons, Bool.and_eq_true] at h
    have ih2 := ih (by simpa [noNilReply] using h.2)
    simp only [noItemFails, List.all_cons] at ih2 ⊢
    rw [ih2]
    congr 1
    obtain ⟨info, err⟩ := r
    cases info <;> cases err <;> simp_all [goodReply]

/-- What the loop of one run of the core computes when it runs to its end. -/
theorem coreLoop_complete (A : Authorize σ ρ η κ) (s : σ) (remote : List BackendResource)
    (desired : List ρ) (hgood : (coreReplies A s desired).all goodReply = true) :
    (coreLoop A s remote desired).needRegister
        = toRegister remote desired (coreReplies A s desired) ∧
      remote.filter (fun b => hitCount (coreLoop A s remote desired).iamResourceKeyMap
          (generateIAMResourceKey b) = 0)
        = toDeregister remote (coreReplies A s desired) ∧
      (coreLoop A s remote desired).scope = lastScope ⟨"", ""⟩ (coreReplies A s desired) := by
  have hk : ∀ k, ((initMaps remote (fun _ => none, fun _ => none)).1 k).isSome
      = (fun k => remote.any (fun b => generateIAMResourceKey b = k)) k := by
    intro k
    rw [initMaps_keyMap]
    by_cases h : remote.any (fun b => generateIAMResourceKey b = k) = true
    · simp [h]
    · simp [h]
  obtain ⟨_, h2, h3, h4, _, _⟩ := classify_complete A _ desired
    (A.DryRunRegisterResource s desired).2 ⟨"", ""⟩ _ [] hk hgood
  refine ⟨?_, ?_, h4⟩
  · unfold coreLoop toRegister coreReplies
    rw [h2, List.nil_append]
    congr 1
    apply List.filter_congr
    intro x _
    rw [isNewItem_eq]
  · unfold toDeregister
    apply List.filter_congr
    intro b hb
    unfold coreLoop hitCount
    rw [h3, initMaps_keyMap]
    have hany : remote.any (fun b2 => generateIAMResourceKey b2 = generateIAMResourceKey b)
        = true := by
      simp only [List.any_eq_true, decide_eq_true_eq]
      exact ⟨b, hb, rfl⟩
    simp [hany, coreReplies]

/-- Register calls of the core when no per-item dry run returns a nil result with a nil
error: one call with the new desired items when the gates are passed, no per-item dry run
fails and there is a new item; no call otherwise. -/
theorem core_register_of_non_nil (A : Authorize σ ρ η κ) (rel : String → Bool)
    (s : σ) (taskName : String) (remote : List BackendResource) (iamIDPrefix : String)
    (desired : List ρ) (skipDeregister : Bool)
    (hnil : noNilReply (coreReplies A s desired) = true) :
    registerCalls
        (diffAndSyncCore A rel s taskName remote iamIDPrefix desired skipDeregister).calls =
      if (passesGates rel (A.DryRunRegisterResource s desired).1 &&
          noItemFails (coreReplies A s desired) &&
          !(toRegister remote desired (coreReplies A s desired)).isEmpty) = true then
        [toRegister remote desired (coreReplies A s desired)]
      else [] := by
  rw [core_registerCalls]
  have hexit : (coreLoop A s remote desired).exit.isNone
      = noItemFails (coreReplies A s desired) := by
    unfold coreLoop
    rw [classify_exit_isNone]
    exact all_goodReply_of_noNilReply _ hnil
  rw [hexit]
  by_cases hf : noItemFails (coreReplies A s desired) = true
  · have hgood : (coreReplies A s desired).all goodReply = true := by
      rw [all_goodReply_of_noNilReply _ hnil]; exact hf
    rw [(coreLoop_complete A s remote desired hgood).1]
  · have hf2 : noItemFails (coreReplies A s desired) = false := by simpa using hf
    simp [hf2]

/-- Deregister calls of the core when no per-item dry run returns a nil result with a nil
error: one call with the zero-hit remote resources, under the scope written last, when the
gates are passed, no per-item dry run fails, `skipDeregister` is false, desired is
non-empty and there is a zero-hit remote resource; no call otherwise. -/
theorem core_deregister_of_non_nil (A : Authorize σ ρ η κ) (rel : String → Bool)
    (s : σ) (taskName : String) (remote : List BackendResource) (iamIDPrefix : String)
    (desired : List ρ) (skipDeregister : Bool)
    (hnil : noNilReply (coreReplies A s desired) = true) :
    deregisterCalls
        (diffAndSyncCore A rel s taskName remote iamIDPrefix desired skipDeregister).calls =
      if (passesGates rel (A.DryRunRegisterResource s desired).1 &&
          noItemFails (coreReplies A s desired) &&
          !skipDeregister && !desired.isEmpty &&
          !(toDeregister remote (coreReplies A s desired)).isEmpty) = true then
        [(lastScope ⟨"", ""⟩ (coreReplies A s desired),
          toDeregister remote (coreReplies A s desired))]
      else [] := by
  rw [core_deregisterCalls]
  have hexit : (coreLoop A s remote desired).exit.isNone
      = noItemFails (coreReplies A s desired) := by
    unfold coreLoop
    rw [classify_exit_isNone]
    exact all_goodReply_of_noNilReply _ hnil
  rw [hexit]
  by_cases hf : noItemFails (coreReplies A s desired) = true
  · have hgood : (coreReplies A s desired).all goodReply = true := by
      rw [all_goodReply_of_noNilReply _ hnil]; exact hf
    obtain ⟨_, h2, h3⟩ := coreLoop_complete A s remote desired hgood
    rw [h2, h3]
  · have hf2 : noItemFails (coreReplies A s desired) = false := by simpa using hf
    simp [hf2]

end Characterisation

/-! ## Safety gates -/

/-- C1 (safety on empty): with an empty desired list, whatever the remote list, the
leaf-id filter string, the `skipDeregister` flag and the behaviour of IAM, one run of
`diffAndSyncCore` issues no register call and no deregister call. -/
theorem safety_on_empty {σ ρ η κ : Type} (A : Authorize σ ρ η κ) (rel : String → Bool)
    (s : σ) (taskName : String) (remote : List BackendResource) (iamIDPrefix : String)
    (skipDeregister : Bool) :
    registerCalls (diffAndSyncCore A rel s taskName remote iamIDPrefix [] skipDeregister).calls
        = [] ∧
      deregisterCalls
        (diffAndSyncCore A rel s taskName remote iamIDPrefix [] skipDeregister).calls = [] := by
  rw [core_registerCalls, core_deregisterCalls]
  simp [coreLoop, classify]

/-- C2 (safety on batch failure): when the batch dry run `dryRun(desired...)` returns an
error, `diffAndSyncCore` returns nil and its whole call trace is that one batch dry run:
no per-item dry run, no register, no deregister. -/
theorem safety_on_batch_failure {σ ρ η κ : Type} (A : Authorize σ ρ η κ)
    (rel : String → Bool) (s : σ) (taskName : String) (remote : List BackendResource)
    (iamIDPrefix : String) (desired : List ρ) (skipDeregister : Bool) (e : Err)
    (hbatch : (A.DryRunRegisterResource s desired).1.2 = some e) :
    (diffAndSyncCore A rel s taskName remote iamIDPrefix desired skipDeregister).outcome
        = Outcome.returned none ∧
      (diffAndSyncCore A rel s taskName remote iamIDPrefix desired skipDeregister).calls
        = [Call.DryRunRegisterResource desired] := by
  unfold diffAndSyncCore
  rcases hrep : (A.DryRunRegisterResource s desired).1 with ⟨info, err⟩
  rw [hrep] at hbatch
  simp only at hbatch
  subst hbatch
  simp [hrep]

/-- C3 (safety on id-correlated type): when the batch dry run succeeds with a non-nil
result whose canonical list is non-empty and whose first canonical has a resource type
flagged by `IsRelatedToResourceID`, `diffAndSyncCore` returns nil and issues no register
and no deregister call (its trace is the batch dry run alone). This holds for every
desired list, in particular for every non-empty one. -/
theorem safety_on_id_correlated_type {σ ρ η κ : Type} (A : Authorize σ ρ η κ)
    (rel : String → Bool) (s : σ) (taskName : String) (remote : List BackendResource)
    (iamIDPrefix : String) (desired : List ρ) (skipDeregister : Bool)
    (info : RegisterInfo) (first : ResourceEntity) (others : List ResourceEntity)
    (hbatch : (A.DryRunRegisterResource s desired).1 = (some info, none))
    (hres : info.Resources = first :: others)
    (hrel : rel first.ResourceType = true) :
    (diffAndSyncCore A rel s taskName remote iamIDPrefix desired skipDeregister).outcome
        = Outcome.returned none ∧
      registerCalls
        (diffAndSyncCore A rel s taskName remote iamIDPrefix desired skipDeregister).calls
        = [] ∧
      deregisterCalls
        (diffAndSyncCore A rel s taskName remote iamIDPrefix desired skipDeregister).calls
        = [] := by
  unfold diffAndSyncCore
  simp only [hbatch, hres, hrel, if_true]
  simp [registerCalls, deregisterCalls]

/-- C4 (no double action): for every input and every behaviour of IAM, the call trace of
one run of `diffAndSyncCore` holds at most one register call and at most one deregister
call. -/
theorem no_double_action {σ ρ η κ : Type} (A : Authorize σ ρ η κ) (rel : String → Bool)
    (s : σ) (taskName : String) (remote : List BackendResource) (iamIDPrefix : String)
    (desired : List ρ) (skipDeregister : Bool) :
    (registerCalls
        (diffAndSyncCore A rel s taskName remote iamIDPrefix desired skipDeregister).calls
      ).length ≤ 1 ∧
    (deregisterCalls
        (diffAndSyncCore A rel s taskName remote iamIDPrefix desired skipDeregister).calls
      ).length ≤ 1 := by
  rw [core_registerCalls, core_deregisterCalls]
  constructor <;> split <;> simp

/-! ## Register and deregister characterisation at a nil per-item result -/

/-- C5 at a failing input: remote is empty, desired is `["1000", "ghost"]`, the batch dry
run passes the gates, the dry run of `1000` returns one canonical with the new key
`biz:1-host:1000`, and the dry run of `ghost` returns a nil result with a nil error. No
per-item dry run fails and the list `L` of new items is `["1000"]`, yet no register call
is issued: line 126 dereferences the nil result and the run panics. -/
theorem register_lost_on_nil_item_result :
    passesGates relNone
        ((scriptedIAM ([], none) dryRunGhost).DryRunRegisterResource () ["1000", "ghost"]).1
      = true ∧
    noItemFails (coreReplies (scriptedIAM ([], none) dryRunGhost) () ["1000", "ghost"])
      = true ∧
    toRegister [] ["1000", "ghost"]
        (coreReplies (scriptedIAM ([], none) dryRunGhost) () ["1000", "ghost"])
      = ["1000"] ∧
    registerCalls (diffAndSyncCore (scriptedIAM ([], none) dryRunGhost) relNone () "task"
        [] "10" ["1000", "ghost"] false).calls = [] ∧
    (diffAndSyncCore (scriptedIAM ([], none) dryRunGhost) relNone () "task"
        [] "10" ["1000", "ghost"] false).outcome = Outcome.panicked := by
  decide

/-- C6 at a failing input: remote is host `1000` and host `1001`, desired is
`["1000", "ghost"]`, `skipDeregister` is false, the batch dry run passes the gates, the
dry run of `1000` hits the key of host `1000`, and the dry run of `ghost` returns a nil
result with a nil error. No per-item dry run fails and the list `M` of zero-hit remote
resources is host `1001`, yet no deregister call is issued: line 126 dereferences the nil
result and the run panics. -/
theorem deregister_lost_on_nil_item_result :
    passesGates relNone
        ((scriptedIAM ([], none) dryRunGhost).DryRunRegisterResource () ["1000", "ghost"]).1
      = true ∧
    noItemFails (coreReplies (scriptedIAM ([], none) dryRunGhost) () ["1000", "ghost"])
      = true ∧
    toDeregister [hostBackend "1000", hostBackend "1001"]
        (coreReplies (scriptedIAM ([], none) dryRunGhost) () ["1000", "ghost"])
      = [hostBackend "1001"] ∧
    deregisterCalls (diffAndSyncCore (scriptedIAM ([], none) dryRunGhost) relNone () "task"
        [hostBackend "1000", hostBackend "1001"] "10" ["1000", "ghost"] false).calls = [] ∧
    (diffAndSyncCore (scriptedIAM ([], none) dryRunGhost) relNone () "task"
        [hostBackend "1000", hostBackend "1001"] "10" ["1000", "ghost"] false).outcome
      = Outcome.panicked := by
  decide

/-- The example of C5 (scenario 1): remote empty, one desired host with one canonical of key
`biz:1-host:1000`; the run is the batch dry run, the per-item dry run and
`register(["1000"])`, and no deregister. -/
theorem scenario_pure_register :
    generateCMDBResourceKey (hostEntity "1000") = "biz:1-host:1000" ∧
    (diffAndSyncCore (scriptedIAM ([], none) dryRunHosts) relNone () "task"
        [] "10" ["1000"] false).calls
      = [Call.DryRunRegisterResource ["1000"], Call.DryRunRegisterResource ["1000"],
          Call.RegisterResource ["1000"]] := by
  decide

/-- The example of C6 (scenario 2): remote is host `1000` and host `1001`, the one desired
host has the key of host `1000`; the run issues no register and deregisters host `1001`
under the scope of the canonical. -/
theorem scenario_pure_deregister :
    (diffAndSyncCore (scriptedIAM ([], none) dryRunHosts) relNone () "task"
        [hostBackend "1000", hostBackend "1001"] "10" ["1000"] false).calls
      = [Call.DryRunRegisterResource ["1000"], Call.DryRunRegisterResource ["1000"],
          Call.RawDeregisterResource ⟨"biz", "1"⟩ [hostBackend "1001"]] := by
  decide

/-! ## Remote filter -/

section Filter

variable {σ ρ η κ : Type}

/-- What the filtering loop keeps, as a predicate on one resource. -/
theorem leafHasPrefix_iff (iamIDPrefix : String) (b : BackendResource) :
    LeafHasPrefix iamIDPrefix b ↔
      ∃ leaf, b.getLast? = some leaf ∧ stringsHasPrefix leaf.ResourceID iamIDPrefix = true := by
  unfold LeafHasPrefix stringsHasPrefix
  constructor
  · rintro ⟨_, leaf, hl, hp⟩
    exact ⟨leaf, hl, List.isPrefixOf_iff_prefix.mpr hp⟩
  · rintro ⟨leaf, hl, hp⟩
    refine ⟨?_, leaf, hl, List.isPrefixOf_iff_prefix.mp hp⟩
    rintro rfl
    simp at hl

/-- Every resource the loop of `getIamResources` adds to its accumulator passes the
filter, and it comes from the listing. -/
theorem getIamResources_realResources_mem (iamIDPrefix : String)
    (listing acc : List BackendResource) (b : BackendResource)
    (hb : b ∈ getIamResources.realResources iamIDPrefix listing acc) :
    b ∈ acc ∨ (b ∈ listing ∧ LeafHasPrefix iamIDPrefix b) := by
  induction listing generalizing acc with
  | nil => exact Or.inl hb
  | cons r rest ih =>
    simp only [getIamResources.realResources] at hb
    split at hb
    · rcases ih acc hb with h | ⟨h1, h2⟩
      · exact Or.inl h
      · exact Or.inr ⟨List.mem_cons_of_mem _ h1, h2⟩
    · rename_i leaf hleaf
      split at hb
      · rename_i hp
        rcases ih _ hb with h | ⟨h1, h2⟩
        · rcases List.mem_append.mp h with h | h
          · exact Or.inl h
          · have : b = r := by simpa using h
            subst this
            exact Or.inr ⟨List.mem_cons_self _ _,
              (leafHasPrefix_iff iamIDPrefix b).mpr ⟨leaf, hleaf, hp⟩⟩
        · exact Or.inr ⟨List.mem_cons_of_mem _ h1, h2⟩
      · rcases ih acc hb with h | ⟨h1, h2⟩
        · exact Or.inl h
        · exact Or.inr ⟨List.mem_cons_of_mem _ h1, h2⟩

/-- The same fact for the copy of the loop inside `diffAndSyncInstances`. -/
theorem diffAndSyncInstances_realResources_mem (iamIDPrefix : String)
    (listing acc : List BackendResource) (b : BackendResource)
    (hb : b ∈ diffAndSyncInstances.realResources iamIDPrefix listing acc) :
    b ∈ acc ∨ (b ∈ listing ∧ LeafHasPrefix iamIDPrefix b) := by
  induction listing generalizing acc with
  | nil => exact Or.inl hb
  | cons r rest ih =>
    simp only [diffAndSyncInstances.realResources] at hb
    split at hb
    · rcases ih acc hb with h | ⟨h1, h2⟩
      · exact Or.inl h
      · exact Or.inr ⟨List.mem_cons_of_mem _ h1, h2⟩
    · rename_i leaf hleaf
      split at hb
      · rename_i hp
        rcases ih _ hb with h | ⟨h1, h2⟩
        · rcases List.mem_append.mp h with h | h
          · exact Or.inl h
          · have : b = r := by simpa using h
            subst this
            exact Or.inr ⟨List.mem_cons_self _ _,
              (leafHasPrefix_iff iamIDPrefix b).mpr ⟨leaf, hleaf, hp⟩⟩
        · exact Or.inr ⟨List.mem_cons_of_mem _ h1, h2⟩
      · rcases ih acc hb with h | ⟨h1, h2⟩
        · exact Or.inl h
        · exact Or.inr ⟨List.mem_cons_of_mem _ h1, h2⟩

/-- Every resource the core passes to deregister is an element of the remote list it was
handed. -/
theorem core_deregistered_mem (A : Authorize σ ρ η κ) (rel : String → Bool)
    (s : σ) (taskName : String) (remote : List BackendResource) (iamIDPrefix : String)
    (desired : List ρ) (skipDeregister : Bool) (sb : ScopeInfo × List BackendResource)
    (hsb : sb ∈ deregisterCalls
      (diffAndSyncCore A rel s taskName remote iamIDPrefix desired skipDeregister).calls)
    (b : BackendResource) (hb : b ∈ sb.2) : b ∈ remote := by
  rw [core_deregisterCalls] at hsb
  split at hsb
  · simp only [List.mem_singleton] at hsb
    subst hsb
    exact (List.mem_filter.mp hb).1
  · simp at hsb

end Filter

/-- Witness of C2: a failing batch dry run with two remote resources leaves the trace at
the batch dry run and returns nil. -/
theorem safety_on_batch_failure_witness :
    (diffAndSyncCore (scriptedIAM ([], none) dryRunDown) relNone () "task"
        [hostBackend "1000", hostBackend "1001"] "10" ["1000"] false).outcome
        = Outcome.returned none ∧
      (diffAndSyncCore (scriptedIAM ([], none) dryRunDown) relNone () "task"
        [hostBackend "1000", hostBackend "1001"] "10" ["1000"] false).calls
        = [Call.DryRunRegisterResource ["1000"]] :=
  safety_on_batch_failure (scriptedIAM ([], none) dryRunDown) relNone () "task"
    [hostBackend "1000", hostBackend "1001"] "10" ["1000"] false "iam unreachable" rfl

/-- Witness of C3: desired and remote non-empty, canonical type `host` id-correlated. -/
theorem safety_on_id_correlated_type_witness :
    (diffAndSyncCore (scriptedIAM ([], none) dryRunHosts) relHost () "task"
        [hostBackend "1001"] "10" ["1000"] false).outcome = Outcome.returned none ∧
      registerCalls (diffAndSyncCore (scriptedIAM ([], none) dryRunHosts) relHost () "task"
        [hostBackend "1001"] "10" ["1000"] false).calls = [] ∧
      deregisterCalls (diffAndSyncCore (scriptedIAM ([], none) dryRunHosts) relHost () "task"
        [hostBackend "1001"] "10" ["1000"] false).calls = [] :=
  safety_on_id_correlated_type (scriptedIAM ([], none) dryRunHosts) relHost () "task"
    [hostBackend "1001"] "10" ["1000"] false ⟨[hostEntity "1000"]⟩ (hostEntity "1000") []
    rfl rfl (by decide)

/-- C7 (leaf-id filter through the listing entries): whatever IAM lists, every backend
resource that `diffAndSync` or `diffAndSyncInstances` passes to deregister has a non-empty
layer sequence whose last layer has a `ResourceID` starting with `iamIDPrefix`. -/
theorem deregistered_by_entries_pass_filter {σ ρ η κ : Type} (A : Authorize σ ρ η κ)
    (rel : String → Bool) (s : σ) (taskName : String) (ra : Option ρ) (header : η)
    (searchCondition : κ) (iamIDPrefix : String) (desired : List ρ) (skipDeregister : Bool) :
    (∀ sb ∈ deregisterCalls
        (diffAndSync A rel s taskName ra iamIDPrefix desired skipDeregister).calls,
      ∀ b ∈ sb.2, LeafHasPrefix iamIDPrefix b) ∧
    (∀ sb ∈ deregisterCalls
        (diffAndSyncInstances A rel s header taskName searchCondition iamIDPrefix desired
          skipDeregister).calls,
      ∀ b ∈ sb.2, LeafHasPrefix iamIDPrefix b) := by
  constructor
  · intro sb hsb b hb
    unfold diffAndSync getIamResources at hsb
    cases herr : (A.ListResources s ra).1.2 with
    | some e => simp [herr, deregisterCalls] at hsb
    | none =>
      simp only [herr, deregisterCalls_append, deregisterCalls, List.nil_append] at hsb
      have hmem := core_deregistered_mem A rel _ taskName _ iamIDPrefix desired
        skipDeregister sb hsb b hb
      rcases getIamResources_realResources_mem iamIDPrefix _ [] b hmem with h | h
      · simp at h
      · exact h.2
  · intro sb hsb b hb
    unfold diffAndSyncInstances at hsb
    cases herr : (A.RawListResources s header searchCondition).1.2 with
    | some e => simp [herr, deregisterCalls] at hsb
    | none =>
      simp only [herr, deregisterCalls] at hsb
      have hmem := core_deregistered_mem A rel _ taskName _ iamIDPrefix desired
        skipDeregister sb hsb b hb
      rcases diffAndSyncInstances_realResources_mem iamIDPrefix _ [] b hmem with h | h
      · simp at h
      · exact h.2

/-- Witness of C7: IAM lists four resources, two of which pass the filter `"10"`; host
`1000` is desired, so `diffAndSync` deregisters host `1001`, which passes the filter. -/
theorem deregistered_by_entries_pass_filter_witness :
    deregisterCalls (diffAndSync
        (scriptedIAM ([hostBackend "1000", hostBackend "2000", [], hostBackend "1001"], none)
          dryRunHosts) relNone () "task" none "10" ["1000"] false).calls
      = [(⟨"biz", "1"⟩, [hostBackend "1001"])] ∧
    LeafHasPrefix "10" (hostBackend "1001") :=
  ⟨by decide,
    (deregistered_by_entries_pass_filter
      (scriptedIAM ([hostBackend "1000", hostBackend "2000", [], hostBackend "1001"], none)
        dryRunHosts) relNone () "task" none () () "10" ["1000"] false).1
      (⟨"biz", "1"⟩, [hostBackend "1001"]) (by decide) (hostBackend "1001") (by decide)⟩

/-- Counterexample to C8: handed a remote list with a resource whose leaf id `2000` does
not start with the filter string `"10"` and a resource without layers, `diffAndSyncCore`
drops neither and passes both to deregister. -/
theorem core_does_not_filter_remote :
    deregisterCalls (diffAndSyncCore (scriptedIAM ([], none) dryRunHosts) relNone () "task"
        [hostBackend "1000", hostBackend "2000", []] "10" ["1000"] false).calls
      = [(⟨"biz", "1"⟩, [hostBackend "2000", []])] ∧
    ¬ LeafHasPrefix "10" (hostBackend "2000") ∧ ¬ LeafHasPrefix "10" [] := by
  refine ⟨by decide, ?_, ?_⟩
  · intro h
    rcases (leafHasPrefix_iff _ _).mp h with ⟨leaf, h1, h2⟩
    simp only [hostBackend, List.getLast?_cons_cons, List.getLast?_singleton,
      Option.some.injEq] at h1
    subst h1
    exact absurd h2 (by decide)
  · intro h
    exact h.1 rfl

/-- C8 as amended: `diffAndSyncCore` applies no filter of its own to the remote list it is
handed (the filter string is not consulted); every backend resource it passes to
deregister is an element of that list. Hence, when every element of the list handed in
has a non-empty layer sequence and a leaf id starting with `iamIDPrefix`, as is the case
for the lists that `diffAndSync` and `diffAndSyncInstances` hand in, so has every
deregistered resource. -/
theorem core_deregisters_from_given_remote {σ ρ η κ : Type} (A : Authorize σ ρ η κ)
    (rel : String → Bool) (s : σ) (taskName : String) (remote : List BackendResource)
    (iamIDPrefix : String) (desired : List ρ) (skipDeregister : Bool) :
    (∀ sb ∈ deregisterCalls
        (diffAndSyncCore A rel s taskName remote iamIDPrefix desired skipDeregister).calls,
      ∀ b ∈ sb.2, b ∈ remote) ∧
    ((∀ r ∈ remote, LeafHasPrefix iamIDPrefix r) →
      ∀ sb ∈ deregisterCalls
        (diffAndSyncCore A rel s taskName remote iamIDPrefix desired skipDeregister).calls,
      ∀ b ∈ sb.2, LeafHasPrefix iamIDPrefix b) := by
  have hmem := core_deregistered_mem A rel s taskName remote iamIDPrefix desired
    skipDeregister
  exact ⟨hmem, fun hall sb hsb b hb => hall b (hmem sb hsb b hb)⟩

/-- Witness of the amended C8: both remote resources pass the filter `"10"`, host `1001`
is deregistered, and it passes the filter. -/
theorem core_deregisters_from_given_remote_witness :
    (∀ r ∈ [hostBackend "1000", hostBackend "1001"], LeafHasPrefix "10" r) ∧
    hostBackend "1001" ∈ [hostBackend "1000", hostBackend "1001"] ∧
    LeafHasPrefix "10" (hostBackend "1001") :=
  have hall : ∀ r ∈ [hostBackend "1000", hostBackend "1001"], LeafHasPrefix "10" r := by
    intro r hr
    simp only [List.mem_cons, List.mem_singleton, List.not_mem_nil, or_false] at hr
    rcases hr with rfl | rfl
    · exact (leafHasPrefix_iff _ _).mpr ⟨_, rfl, by decide⟩
    · exact (leafHasPrefix_iff _ _).mpr ⟨_, rfl, by decide⟩
  ⟨hall,
    (core_deregisters_from_given_remote (scriptedIAM ([], none) dryRunHosts) relNone ()
      "task" [hostBackend "1000", hostBackend "1001"] "10" ["1000"] false).1
      (⟨"biz", "1"⟩, [hostBackend "1001"]) (by decide) (hostBackend "1001") (by decide),
    (core_deregisters_from_given_remote (scriptedIAM ([], none) dryRunHosts) relNone ()
      "task" [hostBackend "1000", hostBackend "1001"] "10" ["1000"] false).2 hall
      (⟨"biz", "1"⟩, [hostBackend "1001"]) (by decide) (hostBackend "1001") (by decide)⟩

/-! ## Key codec -/

section Keys

/-- The range loops of the two key functions build the list of `type:id` strings. -/
theorem foldl_append_singleton {α β : Type} (f : α → β) (l : List α) (init : List β) :
    l.foldl (fun acc x => acc ++ [f x]) init = init ++ l.map f := by
  induction l generalizing init with
  | nil => simp
  | cons x xs ih => simp [ih]

theorem foldl_join (sep e x : String) (rest : List String) :
    (x :: rest).foldl (fun b s => b ++ sep ++ s) e = e ++ sep ++ stringsJoin (x :: rest) sep := by
  induction rest generalizing e x with
  | nil => simp [stringsJoin]
  | cons y r ih =>
    have h1 := ih (e ++ sep ++ x) y
    have h2 := ih x y
    simp only [List.foldl_cons, stringsJoin] at h1 h2 ⊢
    rw [h1, h2]
    simp only [String.append_assoc]

theorem stringsJoin_cons_cons (sep x y : String) (rest : List String) :
    stringsJoin (x :: y :: rest) sep = x ++ sep ++ stringsJoin (y :: rest) sep := by
  have h := foldl_join sep x y rest
  simpa [stringsJoin] using h

/-- Joining the `type:id` strings of a path gives the key of the path. -/
theorem stringsJoin_pathKey (p : List (String × String)) :
    stringsJoin (p.map (fun x => sprintfTypeID x.1 x.2)) "-" = pathKey p := by
  induction p with
  | nil => rfl
  | cons x xs ih =>
    cases xs with
    | nil => rfl
    | cons y ys =>
      rw [List.map_cons] at ih
      rw [List.map_cons, List.map_cons, stringsJoin_cons_cons, ih]
      rfl

theorem generateIAMResourceKey_eq (b : BackendResource) :
    generateIAMResourceKey b = pathKey (layerPath b) := by
  unfold generateIAMResourceKey layerPath
  simp only [foldl_append_singleton, List.nil_append]
  rw [← stringsJoin_pathKey, List.map_map]
  rfl

theorem generateCMDBResourceKey_eq (c : ResourceEntity) :
    generateCMDBResourceKey c = pathKey (idPath c) := by
  unfold generateCMDBResourceKey idPath
  simp only [foldl_append_singleton, List.nil_append]
  rw [← stringsJoin_pathKey, List.map_map]
  rfl

/-- Two character strings that agree once a delimiter is put after them agree up to the
delimiter, when neither holds the delimiter. -/
theorem split_at_delimiter (d : Char) (a a2 x x2 : List Char) (ha : d ∉ a) (ha2 : d ∉ a2)
    (h : a ++ d :: x = a2 ++ d :: x2) : a = a2 ∧ x = x2 := by
  induction a generalizing a2 with
  | nil =>
    cases a2 with
    | nil => simpa using h
    | cons c cs =>
      simp only [List.nil_append, List.cons_append, List.cons.injEq] at h
      exact absurd (h.1 ▸ List.mem_cons_self _ _) ha2
  | cons c cs ih =>
    cases a2 with
    | nil =>
      simp only [List.nil_append, List.cons_append, List.cons.injEq] at h
      exact absurd (h.1 ▸ List.mem_cons_self _ _) ha
    | cons c2 cs2 =>
      simp only [List.cons_append, List.cons.injEq] at h
      have hcs : d ∉ cs := fun hm => ha (List.mem_cons_of_mem _ hm)
      have hcs2 : d ∉ cs2 := fun hm => ha2 (List.mem_cons_of_mem _ hm)
      obtain ⟨h1, h2⟩ := ih cs2 hcs hcs2 h.2
      exact ⟨by rw [h.1, h1], h2⟩

theorem pathKey_data_single (t i : String) :
    (pathKey [(t, i)]).data = t.data ++ ':' :: i.data := by
  simp [pathKey, String.data_append]

theorem pathKey_data_cons (t i : String) (y : String × String)
    (ys : List (String × String)) :
    (pathKey ((t, i) :: y :: ys)).data
      = t.data ++ ':' :: (i.data ++ '-' :: (pathKey (y :: ys)).data) := by
  simp [pathKey, String.data_append]

/-- When no type holds `:` and no id holds `-`, the key determines the path. -/
theorem pathKey_injective_of_separated (p q : List (String × String))
    (hp : TypeIdSeparated p) (hq : TypeIdSeparated q) (h : pathKey p = pathKey q) :
    p = q := by
  induction p generalizing q with
  | nil =>
    cases q with
    | nil => rfl
    | cons y ys =>
      obtain ⟨t, i⟩ := y
      have hd := congrArg String.data h
      cases ys with
      | nil => rw [pathKey_data_single] at hd; simp [pathKey] at hd
      | cons z zs => rw [pathKey_data_cons] at hd; simp [pathKey] at hd
  | cons x xs ih =>
    obtain ⟨t, i⟩ := x
    have hx := hp (t, i) (List.mem_cons_self _ _)
    have hxs : TypeIdSeparated xs := fun z hz => hp z (List.mem_cons_of_mem _ hz)
    cases q with
    | nil =>
      have hd := congrArg String.data h
      cases xs with
      | nil => rw [pathKey_data_single] at hd; simp [pathKey] at hd
      | cons z zs => rw [pathKey_data_cons] at hd; simp [pathKey] at hd
    | cons y ys =>
      obtain ⟨t2, i2⟩ := y
      have hy := hq (t2, i2) (List.mem_cons_self _ _)
      have hys : TypeIdSeparated ys := fun z hz => hq z (List.mem_cons_of_mem _ hz)
      have hd := congrArg String.data h
      cases xs with
      | nil =>
        cases ys with
        | nil =>
          rw [pathKey_data_single, pathKey_data_single] at hd
          obtain ⟨h1, h2⟩ := split_at_delimiter ':' _ _ _ _ hx.1 hy.1 hd
          have e1 : t = t2 := String.ext h1
          have e2 : i = i2 := String.ext h2
          rw [e1, e2]
        | cons z zs =>
          rw [pathKey_data_single, pathKey_data_cons] at hd
          obtain ⟨h1, h2⟩ := split_at_delimiter ':' _ _ _ _ hx.1 hy.1 hd
          exact absurd (h2 ▸ List.mem_append_right _ (List.mem_cons_self _ _)) hx.2
      | cons w ws =>
        cases ys with
        | nil =>
          rw [pathKey_data_single, pathKey_data_cons] at hd
          obtain ⟨h1, h2⟩ := split_at_delimiter ':' _ _ _ _ hx.1 hy.1 hd
          exact absurd (h2 ▸ List.mem_append_right _ (List.mem_cons_self _ _)) hy.2
        | cons z zs =>
          rw [pathKey_data_cons, pathKey_data_cons] at hd
          obtain ⟨h1, h2⟩ := split_at_delimiter ':' _ _ _ _ hx.1 hy.1 hd
          obtain ⟨h3, h4⟩ := split_at_delimiter '-' _ _ _ _ hx.2 hy.2 h2
          have e1 : t = t2 := String.ext h1
          have e2 : i = i2 := String.ext h3
          rw [e1, e2, ih (z :: zs) hxs hys (String.ext h4)]

/-- Without delimiters in the components, the key determines the path. -/
theorem pathKey_injective (p q : List (String × String)) (hp : DelimiterFree p)
    (hq : DelimiterFree q) (h : pathKey p = pathKey q) : p = q :=
  pathKey_injective_of_separated p q
    (fun x hx => ⟨(hp x hx).1, (hp x hx).2.2.2⟩)
    (fun x hx => ⟨(hq x hx).1, (hq x hx).2.2.2⟩) h

end Keys

/-- C9 (key format): `generateIAMResourceKey` returns the string `t1:i1-…-tN:iN` built from
the `(type, id)` pairs of the layers (names play no part, nothing is escaped, the empty
string for no layers), `generateCMDBResourceKey` returns the same string built from the
id path, and so a backend resource and a canonical resource with the same `(type, id)`
path have equal keys. -/
theorem key_format (b : BackendResource) (c : ResourceEntity) :
    generateIAMResourceKey b = pathKey (layerPath b) ∧
    generateCMDBResourceKey c = pathKey (idPath c) ∧
    generateIAMResourceKey [] = "" ∧
    (layerPath b = idPath c → generateIAMResourceKey b = generateCMDBResourceKey c) := by
  refine ⟨generateIAMResourceKey_eq b, generateCMDBResourceKey_eq c, rfl, ?_⟩
  intro h
  rw [generateIAMResourceKey_eq, generateCMDBResourceKey_eq, h]

/-- Witness of C9: host `1000` of business 1 on both sides, key `biz:1-host:1000`. -/
theorem key_format_witness :
    layerPath (hostBackend "1000") = idPath (hostEntity "1000") ∧
    generateIAMResourceKey (hostBackend "1000") = "biz:1-host:1000" ∧
    generateIAMResourceKey (hostBackend "1000")
      = generateCMDBResourceKey (hostEntity "1000") :=
  ⟨by decide, by decide,
    (key_format (hostBackend "1000") (hostEntity "1000")).2.2.2 (by decide)⟩

/-- Counterexample to C10: the one-layer resource of type `a` and id `b-c:d` and the
canonical path `(a, b), (c, d)` have the same key `a:b-c:d` although their `(type, id)`
sequences differ (a `-` inside an id); and the one-layer resource of type `a:b` and id
`c` and the canonical path `(a, b:c)` have the same key `a:b:c` although their sequences
differ (a `:` inside a type). -/
theorem equal_keys_of_different_paths :
    (generateIAMResourceKey [⟨"a", "b-c:d", ""⟩]
      = generateCMDBResourceKey ⟨"c", "biz", "1", "", [⟨"a", "b"⟩, ⟨"c", "d"⟩]⟩ ∧
    layerPath [⟨"a", "b-c:d", ""⟩]
      ≠ idPath ⟨"c", "biz", "1", "", [⟨"a", "b"⟩, ⟨"c", "d"⟩]⟩) ∧
    (generateIAMResourceKey [⟨"a:b", "c", ""⟩]
      = generateCMDBResourceKey ⟨"a", "biz", "1", "", [⟨"a", "b:c"⟩]⟩ ∧
    layerPath [⟨"a:b", "c", ""⟩]
      ≠ idPath ⟨"a", "biz", "1", "", [⟨"a", "b:c"⟩]⟩) := by
  decide

/-- C10 as amended: equal `(type, id)` sequences always give equal keys; and when, on
either side, no type contains `:` and no id contains `-` (ids may contain `:`, as in
`cmdb:biz:1:x`, and types may contain `-`), the keys are equal if and only if the
`(type, id)` sequence of the layers of `b` equals that of the id path of `c`. -/
theorem key_contract (b : BackendResource) (c : ResourceEntity) :
    (layerPath b = idPath c → generateIAMResourceKey b = generateCMDBResourceKey c) ∧
    (TypeIdSeparated (layerPath b) → TypeIdSeparated (idPath c) →
      (generateIAMResourceKey b = generateCMDBResourceKey c ↔ layerPath b = idPath c)) := by
  have hif : layerPath b = idPath c →
      generateIAMResourceKey b = generateCMDBResourceKey c := by
    intro h
    rw [generateIAMResourceKey_eq, generateCMDBResourceKey_eq, h]
  refine ⟨hif, fun hb hc => ⟨fun h => ?_, hif⟩⟩
  rw [generateIAMResourceKey_eq, generateCMDBResourceKey_eq] at h
  exact pathKey_injective_of_separated _ _ hb hc h

/-- Witness of the amended C10: a host whose ids are `cmdb:biz:1` and `cmdb:biz:1:x`, on
both sides; the ids hold `:`, no type holds `:` and no id holds `-`. -/
theorem key_contract_witness :
    TypeIdSeparated (layerPath layoutHostBackend) ∧
    TypeIdSeparated (idPath layoutHostEntity) ∧
    generateIAMResourceKey layoutHostBackend = "biz:cmdb:biz:1-host:cmdb:biz:1:x" ∧
    (generateIAMResourceKey layoutHostBackend = generateCMDBResourceKey layoutHostEntity
      ↔ layerPath layoutHostBackend = idPath layoutHostEntity) :=
  have hb : TypeIdSeparated (layerPath layoutHostBackend) := by
    unfold TypeIdSeparated; decide
  have hc : TypeIdSeparated (idPath layoutHostEntity) := by
    unfold TypeIdSeparated; decide
  ⟨hb, hc, by decide, (key_contract layoutHostBackend layoutHostEntity).2 hb hc⟩

/-! ## Key injectivity -/

/-- C19 (key injectivity without delimiters): for `(type, id)` paths in which no type and
no id contains `:` or `-`, equal keys force equal paths, whether the keys are built by
`generateIAMResourceKey` from layers, by `generateCMDBResourceKey` from id paths, or one
of each; distinct delimiter-free paths, of any lengths, never share a key. -/
theorem key_injective_without_delimiters (b1 b2 : BackendResource) (c1 c2 : ResourceEntity)
    (hb1 : DelimiterFree (layerPath b1)) (hb2 : DelimiterFree (layerPath b2))
    (hc1 : DelimiterFree (idPath c1)) (hc2 : DelimiterFree (idPath c2)) :
    (generateIAMResourceKey b1 = generateIAMResourceKey b2 → layerPath b1 = layerPath b2) ∧
    (generateCMDBResourceKey c1 = generateCMDBResourceKey c2 → idPath c1 = idPath c2) ∧
    (generateIAMResourceKey b1 = generateCMDBResourceKey c1 → layerPath b1 = idPath c1) := by
  refine ⟨fun h => ?_, fun h => ?_, fun h => ?_⟩
  · rw [generateIAMResourceKey_eq, generateIAMResourceKey_eq] at h
    exact pathKey_injective _ _ hb1 hb2 h
  · rw [generateCMDBResourceKey_eq, generateCMDBResourceKey_eq] at h
    exact pathKey_injective _ _ hc1 hc2 h
  · rw [generateIAMResourceKey_eq, generateCMDBResourceKey_eq] at h
    exact pathKey_injective _ _ hb1 hc1 h


/-- Witness of C19: hosts `1000` and `1001` of business 1, on both sides; all components
are free of delimiters. -/
theorem key_injective_without_delimiters_witness :
    DelimiterFree (layerPath (hostBackend "1000")) ∧
    DelimiterFree (layerPath (hostBackend "1001")) ∧
    DelimiterFree (idPath (hostEntity "1000")) ∧
    DelimiterFree (idPath (hostEntity "1001")) ∧
    (generateIAMResourceKey (hostBackend "1000") = generateIAMResourceKey (hostBackend "1001")
      → layerPath (hostBackend "1000") = layerPath (hostBackend "1001")) ∧
    (generateCMDBResourceKey (hostEntity "1000") = generateCMDBResourceKey (hostEntity "1001")
      → idPath (hostEntity "1000") = idPath (hostEntity "1001")) ∧
    (generateIAMResourceKey (hostBackend "1000") = generateCMDBResourceKey (hostEntity "1000")
      → layerPath (hostBackend "1000") = idPath (hostEntity "1000")) :=
  have h1 : DelimiterFree (layerPath (hostBackend "1000")) := by
    unfold DelimiterFree; decide
  have h2 : DelimiterFree (layerPath (hostBackend "1001")) := by
    unfold DelimiterFree; decide
  have h3 : DelimiterFree (idPath (hostEntity "1000")) := by
    unfold DelimiterFree; decide
  have h4 : DelimiterFree (idPath (hostEntity "1001")) := by
    unfold DelimiterFree; decide
  ⟨h1, h2, h3, h4,
    key_injective_without_delimiters (hostBackend "1000") (hostBackend "1001")
      (hostEntity "1000") (hostEntity "1001") h1 h2 h3 h4⟩

/-! ## Nil result of a per-item dry run -/

/-- C20 at a failing input: desired is `["1000", "ghost"]`, the batch dry run passes the
gates, and the per-item dry run of `ghost` returns a nil result with a nil error. The run
does not complete: after the dry runs of `1000` and `ghost`, line 126 dereferences the nil
result and the run panics, where skipping `ghost` would have ended in `register(["1000"])`
and a nil return. -/
theorem nil_item_result_is_dereferenced :
    passesGates relNone
        ((scriptedIAM ([], none) dryRunGhost).DryRunRegisterResource () ["1000", "ghost"]).1
      = true ∧
    coreReplies (scriptedIAM ([], none) dryRunGhost) () ["1000", "ghost"]
      = [(some ⟨[hostEntity "1000"]⟩, none), (none, none)] ∧
    (diffAndSyncCore (scriptedIAM ([], none) dryRunGhost) relNone () "task"
        [] "10" ["1000", "ghost"] false).outcome = Outcome.panicked ∧
    (diffAndSyncCore (scriptedIAM ([], none) dryRunGhost) relNone () "task"
        [] "10" ["1000", "ghost"] false).calls
      = [Call.DryRunRegisterResource ["1000", "ghost"], Call.DryRunRegisterResource ["1000"],
          Call.DryRunRegisterResource ["ghost"]] := by
  decide

/-! ## Scope of the deregister call -/

/-- The scope written last by the loop is the scope of the canonical of the last reply
with exactly one canonical, and the initial scope when there is none. -/
theorem lastScope_eq (replies : List DryRunReply) :
    ∀ scope : ScopeInfo, lastScope scope replies =
      match (replies.filterMap singleCanonical).getLast? with
      | some c => ⟨c.ScopeType, c.ScopeID⟩
      | none => scope := by
  induction replies with
  | nil => intro scope; rfl
  | cons r rest ih =>
    intro scope
    cases hsc : singleCanonical r with
    | none => simp only [lastScope, hsc, List.filterMap_cons, ih]
    | some c =>
      simp only [lastScope, hsc, List.filterMap_cons, ih]
      cases rest.filterMap singleCanonical with
      | nil => rfl
      | cons x xs =>
        rw [List.getLast?_cons_cons]
        cases h : (x :: xs).getLast? with
        | none => simp at h
        | some y => rfl

/-- Counterexample to C18: remote is host `1000`, desired is the single item `twin`, whose
dry run returns two canonicals, so the batch dry run passes the gates and the per-item dry
run is skipped as ambiguous. No desired item has a dry run with exactly one canonical, yet
deregister is called, with the zero-value scope and the whole remote list. -/
theorem deregister_with_zero_value_scope :
    passesGates relNone
        ((scriptedIAM ([], none) dryRunTwin).DryRunRegisterResource () ["twin"]).1 = true ∧
    (coreReplies (scriptedIAM ([], none) dryRunTwin) () ["twin"]).all
        (fun r => (singleCanonical r).isNone) = true ∧
    (diffAndSyncCore (scriptedIAM ([], none) dryRunTwin) relNone () "task"
        [hostBackend "1000"] "10" ["twin"] false).calls
      = [Call.DryRunRegisterResource ["twin"], Call.DryRunRegisterResource ["twin"],
          Call.RawDeregisterResource ⟨"", ""⟩ [hostBackend "1000"]] := by
  decide

/-- C18 as amended: for every run of `diffAndSyncCore` in which deregister is called, the
scope argument is the scope of the canonical of the last desired item, in input order,
whose per-item dry run returned exactly one canonical, and it is the zero-value scope
when no desired item has such a dry run (every item was skipped as ambiguous). -/
theorem core_deregister_scope {σ ρ η κ : Type} (A : Authorize σ ρ η κ)
    (rel : String → Bool) (s : σ) (taskName : String) (remote : List BackendResource)
    (iamIDPrefix : String) (desired : List ρ) (skipDeregister : Bool)
    (sb : ScopeInfo × List BackendResource)
    (hsb : sb ∈ deregisterCalls
      (diffAndSyncCore A rel s taskName remote iamIDPrefix desired skipDeregister).calls) :
    sb.1 = scopeOfLastCanonical (coreReplies A s desired) := by
  rw [core_deregisterCalls] at hsb
  split at hsb
  · rename_i hc
    simp only [Bool.and_eq_true] at hc
    have hgood : (coreReplies A s desired).all goodReply = true := by
      have h := hc.1.1.1.2
      unfold coreLoop at h
      rw [classify_exit_isNone] at h
      exact h
    simp only [List.mem_singleton] at hsb
    rw [hsb]
    unfold scopeOfLastCanonical
    rw [← lastScope_eq]
    exact (coreLoop_complete A s remote desired hgood).2.2
  · simp at hsb

/-- Witness of the amended C18: remote is host `1001`, desired is `["1000", "blank"]`; host
`1000` has one canonical, of scope `(biz, 1)`, and `blank` has none; deregister is called
under the scope `(biz, 1)`. -/
theorem core_deregister_scope_witness :
    (diffAndSyncCore (scriptedIAM ([], none) dryRunBlank) relNone () "task"
        [hostBackend "1001"] "10" ["1000", "blank"] false).calls
      = [Call.DryRunRegisterResource ["1000", "blank"], Call.DryRunRegisterResource ["1000"],
          Call.DryRunRegisterResource ["blank"], Call.RegisterResource ["1000"],
          Call.RawDeregisterResource ⟨"biz", "1"⟩ [hostBackend "1001"]] ∧
    scopeOfLastCanonical
        (coreReplies (scriptedIAM ([], none) dryRunBlank) () ["1000", "blank"])
      = ⟨"biz", "1"⟩ ∧
    (⟨"biz", "1"⟩ : ScopeInfo) = scopeOfLastCanonical
        (coreReplies (scriptedIAM ([], none) dryRunBlank) () ["1000", "blank"]) :=
  ⟨by decide, by decide,
    core_deregister_scope (scriptedIAM ([], none) dryRunBlank) relNone () "task"
      [hostBackend "1001"] "10" ["1000", "blank"] false
      (⟨"biz", "1"⟩, [hostBackend "1001"]) (by decide)⟩


/-! ## Return value of the core -/

section Outcome

variable {σ ρ η κ : Type}

/-- The return value of the core: the "unexpected nil" error for a nil batch result, the
exit of the classification loop when the gates are passed and the loop is left early, nil
in every other case. -/
theorem core_outcome (A : Authorize σ ρ η κ) (rel : String → Bool)
    (s : σ) (taskName : String) (remote : List BackendResource) (iamIDPrefix : String)
    (desired : List ρ) (skipDeregister : Bool) :
    (diffAndSyncCore A rel s taskName remote iamIDPrefix desired skipDeregister).outcome =
      if passesGates rel (A.DryRunRegisterResource s desired).1 = true then
        match (coreLoop A s remote desired).exit with
        | some o => o
        | none => Outcome.returned none
      else if ((A.DryRunRegisterResource s desired).1.1.isNone &&
          (A.DryRunRegisterResource s desired).1.2.isNone) = true then
        Outcome.returned (some "dry run result in unexpected nil")
      else Outcome.returned none := by
  by_cases hg : passesGates rel (A.DryRunRegisterResource s desired).1 = true
  · rw [core_classified A rel s taskName remote iamIDPrefix desired skipDeregister hg, if_pos hg]
    cases (coreLoop A s remote desired).exit <;> rfl
  · rw [if_neg hg]
    unfold diffAndSyncCore
    rcases hrep : (A.DryRunRegisterResource s desired).1 with ⟨info, err⟩
    rw [hrep] at hg
    cases err with
    | some e => simp [hrep]
    | none =>
      cases info with
      | none => simp [hrep]
      | some info =>
        cases hres : info.Resources with
        | nil => simp [hrep, hres]
        | cons first others =>
          have hrel : rel first.ResourceType = true := by
            simpa [passesGates, hres] using hg
          simp [hrep, hres, hrel]

/-- When the gates are not passed, the IAM state is the one left by the batch dry run. -/
theorem core_gated_state (A : Authorize σ ρ η κ) (rel : String → Bool)
    (s : σ) (taskName : String) (remote : List BackendResource) (iamIDPrefix : String)
    (desired : List ρ) (skipDeregister : Bool)
    (h : passesGates rel (A.DryRunRegisterResource s desired).1 = false) :
    (diffAndSyncCore A rel s taskName remote iamIDPrefix desired skipDeregister).state
      = (A.DryRunRegisterResource s desired).2 := by
  unfold diffAndSyncCore
  rcases hrep : (A.DryRunRegisterResource s desired).1 with ⟨info, err⟩
  rw [hrep] at h
  cases err with
  | some e => simp [hrep]
  | none =>
    cases info with
    | none => simp [hrep]
    | some info =>
      cases hres : info.Resources with
      | nil => simp [hrep, hres]
      | cons first others =>
        have hrel : rel first.ResourceType = true := by
          simpa [passesGates, hres] using h
        simp [hrep, hres, hrel]

/-- The classification loop depends on the capability through its dry run only. -/
theorem classify_congr (A B : Authorize σ ρ η κ)
    (h : A.DryRunRegisterResource = B.DryRunRegisterResource) (rs : List ρ) :
    ∀ (s : σ) (scope : ScopeInfo) (m : GoMap Nat) (nr : List ρ),
      classify A rs s scope m nr = classify B rs s scope m nr := by
  induction rs with
  | nil => intro s scope m nr; rfl
  | cons r rest ih =>
    intro s scope m nr
    simp only [classify, h, ih]

theorem coreLoop_congr (A B : Authorize σ ρ η κ)
    (h : A.DryRunRegisterResource = B.DryRunRegisterResource) (s : σ)
    (remote : List BackendResource) (desired : List ρ) :
    coreLoop A s remote desired = coreLoop B s remote desired := by
  unfold coreLoop
  rw [classify_congr A B h, h]

end Outcome

/-! ## Register and deregister failures -/

/-- C15 (register and deregister failures are swallowed): two capabilities with the same
dry-run behaviour, whatever their register and deregister calls return and whatever those
calls do to the IAM state, make `diffAndSyncCore` return the same value and issue the same
calls with the same arguments, so a failing register changes neither the return value nor
the deregister call; and whenever a register or a deregister call is issued the return
value is nil. -/
theorem register_and_deregister_failures_swallowed {σ ρ η κ : Type}
    (A B : Authorize σ ρ η κ) (hdry : A.DryRunRegisterResource = B.DryRunRegisterResource)
    (rel : String → Bool) (s : σ) (taskName : String) (remote : List BackendResource)
    (iamIDPrefix : String) (desired : List ρ) (skipDeregister : Bool) :
    (diffAndSyncCore A rel s taskName remote iamIDPrefix desired skipDeregister).outcome
      = (diffAndSyncCore B rel s taskName remote iamIDPrefix desired skipDeregister).outcome ∧
    (diffAndSyncCore A rel s taskName remote iamIDPrefix desired skipDeregister).calls
      = (diffAndSyncCore B rel s taskName remote iamIDPrefix desired skipDeregister).calls ∧
    (registerCalls
        (diffAndSyncCore A rel s taskName remote iamIDPrefix desired skipDeregister).calls ≠ []
      → (diffAndSyncCore A rel s taskName remote iamIDPrefix desired skipDeregister).outcome
        = Outcome.returned none) ∧
    (deregisterCalls
        (diffAndSyncCore A rel s taskName remote iamIDPrefix desired skipDeregister).calls ≠ []
      → (diffAndSyncCore A rel s taskName remote iamIDPrefix desired skipDeregister).outcome
        = Outcome.returned none) := by
  refine ⟨?_, ?_, ?_, ?_⟩
  · rw [core_outcome, core_outcome, coreLoop_congr A B hdry, hdry]
  · by_cases hg : passesGates rel (A.DryRunRegisterResource s desired).1 = true
    · have hg2 : passesGates rel (B.DryRunRegisterResource s desired).1 = true := by
        rw [← hdry]; exact hg
      rw [core_classified A rel s taskName remote iamIDPrefix desired skipDeregister hg,
        core_classified B rel s taskName remote iamIDPrefix desired skipDeregister hg2,
        coreLoop_congr A B hdry]
      cases (coreLoop B s remote desired).exit with
      | some o => rfl
      | none => simp only [registerStep_calls, deregisterStep_calls]
    · have hg1 : passesGates rel (A.DryRunRegisterResource s desired).1 = false := by
        simpa using hg
      have hg2 : passesGates rel (B.DryRunRegisterResource s desired).1 = false := by
        rw [← hdry]; exact hg1
      rw [core_gated A rel s taskName remote iamIDPrefix desired skipDeregister hg1,
        core_gated B rel s taskName remote iamIDPrefix desired skipDeregister hg2]
  · intro hcall
    rw [core_registerCalls] at hcall
    rw [core_outcome]
    split at hcall
    · rename_i hc
      simp only [Bool.and_eq_true] at hc
      rw [if_pos hc.1.1]
      cases hexit : (coreLoop A s remote desired).exit with
      | some o => rw [hexit] at hc; simp at hc
      | none => rfl
    · exact absurd rfl hcall
  · intro hcall
    rw [core_deregisterCalls] at hcall
    rw [core_outcome]
    split at hcall
    · rename_i hc
      simp only [Bool.and_eq_true] at hc
      rw [if_pos hc.1.1.1.1]
      cases hexit : (coreLoop A s remote desired).exit with
      | some o => rw [hexit] at hc; simp at hc
      | none => rfl
    · exact absurd rfl hcall


/-- Witness of C15: host `1000` is registered and host `1001` deregistered; with register
and deregister succeeding or failing the calls and the nil return are the same. -/
theorem register_and_deregister_failures_swallowed_witness :
    (diffAndSyncCore (scriptedIAM ([], none) dryRunHosts) relNone () "task"
        [hostBackend "1001"] "10" ["1000"] false).calls
      = (diffAndSyncCore (failingIAM ([], none) dryRunHosts) relNone () "task"
        [hostBackend "1001"] "10" ["1000"] false).calls ∧
    (diffAndSyncCore (failingIAM ([], none) dryRunHosts) relNone () "task"
        [hostBackend "1001"] "10" ["1000"] false).calls
      = [Call.DryRunRegisterResource ["1000"], Call.DryRunRegisterResource ["1000"],
          Call.RegisterResource ["1000"],
          Call.RawDeregisterResource ⟨"biz", "1"⟩ [hostBackend "1001"]] ∧
    (diffAndSyncCore (failingIAM ([], none) dryRunHosts) relNone () "task"
        [hostBackend "1001"] "10" ["1000"] false).outcome = Outcome.returned none :=
  ⟨(register_and_deregister_failures_swallowed (scriptedIAM ([], none) dryRunHosts)
      (failingIAM ([], none) dryRunHosts) rfl relNone () "task" [hostBackend "1001"] "10"
      ["1000"] false).2.1,
    by decide,
    (register_and_deregister_failures_swallowed (failingIAM ([], none) dryRunHosts)
      (scriptedIAM ([], none) dryRunHosts) rfl relNone () "task" [hostBackend "1001"] "10"
      ["1000"] false).2.2.2 (by decide)⟩

/-! ## Which resources are deregistered -/

section ByKey

variable {σ ρ η κ : Type}

theorem initMaps_resourceMap_of_not_mem (remote : List BackendResource)
    (maps : GoMap Nat × GoMap BackendResource) (k : String)
    (hk : k ∉ remote.map generateIAMResourceKey) :
    (initMaps remote maps).2 k = maps.2 k := by
  induction remote generalizing maps with
  | nil => rfl
  | cons b bs ih =>
    simp only [List.map_cons, List.mem_cons, not_or] at hk
    rw [initMaps, ih _ hk.2]
    simp [GoMap.set, hk.1]

/-- When the keys of the remote resources are pairwise distinct, `iamResourceMap` stores
every remote resource under its key. -/
theorem initMaps_resourceMap (remote : List BackendResource)
    (maps : GoMap Nat × GoMap BackendResource)
    (hnodup : (remote.map generateIAMResourceKey).Nodup) (b : BackendResource)
    (hb : b ∈ remote) :
    (initMaps remote maps).2 (generateIAMResourceKey b) = some b := by
  induction remote generalizing maps with
  | nil => simp at hb
  | cons x xs ih =>
    simp only [List.map_cons, List.nodup_cons] at hnodup
    rw [initMaps]
    rcases List.mem_cons.mp hb with rfl | hmem
    · rw [initMaps_resourceMap_of_not_mem xs _ _ hnodup.1]
      simp [GoMap.set]
    · exact ih _ hnodup.2 hmem

end ByKey

/-- Counterexample to C17: the remote list holds host `1001` twice, under two names, so
both records have the key `biz:1-host:1001`, which no desired item hits. Both records are
passed to deregister, although `iamResourceMap` stores only the second one under that
key. -/
theorem deregister_passes_every_record_of_a_key :
    (diffAndSyncCore (scriptedIAM ([], none) dryRunHosts) relNone () "task"
        [namedHostBackend "1001" "old name", namedHostBackend "1001" "new name"] "10"
        ["1000"] false).calls
      = [Call.DryRunRegisterResource ["1000"], Call.DryRunRegisterResource ["1000"],
          Call.RegisterResource ["1000"],
          Call.RawDeregisterResource ⟨"biz", "1"⟩
            [namedHostBackend "1001" "old name", namedHostBackend "1001" "new name"]] ∧
    generateIAMResourceKey (namedHostBackend "1001" "old name")
      = generateIAMResourceKey (namedHostBackend "1001" "new name") ∧
    (initMaps [namedHostBackend "1001" "old name", namedHostBackend "1001" "new name"]
        (fun _ => none, fun _ => none)).2 "biz:1-host:1001"
      = some (namedHostBackend "1001" "new name") ∧
    namedHostBackend "1001" "old name" ≠ namedHostBackend "1001" "new name" := by
  decide

/-- C17 as amended: the resources passed to deregister are the elements of the remote list,
in order and with repetitions, whose key has hit count 0 in `iamResourceKeyMap`; the map
`iamResourceMap` is not consulted. When the keys of the remote resources are pairwise
distinct this is the collection of the records stored in `iamResourceMap` under the
zero-hit keys: every deregistered resource is the record stored under its key. -/
theorem deregister_takes_zero_hit_remote {σ ρ η κ : Type} (A : Authorize σ ρ η κ)
    (rel : String → Bool) (s : σ) (taskName : String) (remote : List BackendResource)
    (iamIDPrefix : String) (desired : List ρ) (skipDeregister : Bool) :
    (∀ sb ∈ deregisterCalls
        (diffAndSyncCore A rel s taskName remote iamIDPrefix desired skipDeregister).calls,
      sb.2 = remote.filter (fun b =>
        hitCount (coreLoop A s remote desired).iamResourceKeyMap
          (generateIAMResourceKey b) = 0)) ∧
    ((remote.map generateIAMResourceKey).Nodup →
      ∀ sb ∈ deregisterCalls
        (diffAndSyncCore A rel s taskName remote iamIDPrefix desired skipDeregister).calls,
      ∀ b ∈ sb.2,
        (initMaps remote (fun _ => none, fun _ => none)).2 (generateIAMResourceKey b)
          = some b) := by
  have hfilter : ∀ sb ∈ deregisterCalls
      (diffAndSyncCore A rel s taskName remote iamIDPrefix desired skipDeregister).calls,
      sb.2 = remote.filter (fun b =>
        hitCount (coreLoop A s remote desired).iamResourceKeyMap
          (generateIAMResourceKey b) = 0) := by
    intro sb hsb
    rw [core_deregisterCalls] at hsb
    split at hsb
    · simp only [List.mem_singleton] at hsb
      rw [hsb]
    · simp at hsb
  refine ⟨hfilter, fun hnodup sb hsb b hb => ?_⟩
  rw [hfilter sb hsb] at hb
  exact initMaps_resourceMap remote _ hnodup b (List.mem_filter.mp hb).1

/-- Witness of the amended C17: two remote hosts with distinct keys, host `1001` is
deregistered and is the record stored under its key. -/
theorem deregister_takes_zero_hit_remote_witness :
    ([hostBackend "1000", hostBackend "1001"].map generateIAMResourceKey).Nodup ∧
    (initMaps [hostBackend "1000", hostBackend "1001"] (fun _ => none, fun _ => none)).2
        (generateIAMResourceKey (hostBackend "1001")) = some (hostBackend "1001") :=
  ⟨by decide,
    (deregister_takes_zero_hit_remote (scriptedIAM ([], none) dryRunHosts) relNone ()
      "task" [hostBackend "1000", hostBackend "1001"] "10" ["1000"] false).2 (by decide)
      (⟨"biz", "1"⟩, [hostBackend "1001"]) (by decide) (hostBackend "1001") (by decide)⟩


/-! ## The listing entries -/

section Entries

variable {σ ρ η κ : Type}

theorem remoteFilter_cons (b : BackendResource) (rest : List BackendResource) (p : String) :
    remoteFilter (b :: rest) p =
      match b.getLast? with
      | none => remoteFilter rest p
      | some leaf =>
        if stringsHasPrefix leaf.ResourceID p then b :: remoteFilter rest p
        else remoteFilter rest p := by
  unfold remoteFilter
  rw [List.filter_cons, List.getLast?_eq_head?_reverse]
  cases b.reverse with
  | nil => simp
  | cons leaf front => simp [stringsHasPrefix]

theorem mem_remoteFilter (rs : List BackendResource) (p : String) (b : BackendResource) :
    b ∈ remoteFilter rs p ↔ b ∈ rs ∧ LeafHasPrefix p b := by
  unfold remoteFilter LeafHasPrefix
  rw [List.mem_filter, List.getLast?_eq_head?_reverse]
  cases hr : b.reverse with
  | nil =>
    have hb : b = [] := List.reverse_eq_nil_iff.mp hr
    simp [hb]
  | cons leaf front =>
    have hb : b ≠ [] := by
      intro h
      rw [h] at hr
      simp at hr
    simp [hb, List.isPrefixOf_iff_prefix]

/-- The filtering loop of `getIamResources` appends the filtered listing to its
accumulator. -/
theorem getIamResources_realResources_eq (p : String) (listing acc : List BackendResource) :
    getIamResources.realResources p listing acc = acc ++ remoteFilter listing p := by
  induction listing generalizing acc with
  | nil => simp [getIamResources.realResources, remoteFilter]
  | cons b rest ih =>
    rw [getIamResources.realResources, remoteFilter_cons]
    cases b.getLast? with
    | none => exact ih acc
    | some leaf =>
      by_cases hp : stringsHasPrefix leaf.ResourceID p = true
      · simp only [hp, if_true]
        rw [ih]
        simp
      · simp only [hp]
        exact ih acc

/-- The filtering loop of `diffAndSyncInstances` appends the filtered listing to its
accumulator. -/
theorem diffAndSyncInstances_realResources_eq (p : String)
    (listing acc : List BackendResource) :
    diffAndSyncInstances.realResources p listing acc = acc ++ remoteFilter listing p := by
  induction listing generalizing acc with
  | nil => simp [diffAndSyncInstances.realResources, remoteFilter]
  | cons b rest ih =>
    rw [diffAndSyncInstances.realResources, remoteFilter_cons]
    cases b.getLast? with
    | none => exact ih acc
    | some leaf =>
      by_cases hp : stringsHasPrefix leaf.ResourceID p = true
      · simp only [hp, if_true]
        rw [ih]
        simp
      · simp only [hp]
        exact ih acc

/-- `diffAndSync` after a successful listing. -/
theorem diffAndSync_of_listed (A : Authorize σ ρ η κ) (rel : String → Bool) (s : σ)
    (taskName : String) (ra : Option ρ) (p : String) (desired : List ρ)
    (skipDeregister : Bool) (h : (A.ListResources s ra).1.2 = none) :
    diffAndSync A rel s taskName ra p desired skipDeregister =
      { diffAndSyncCore A rel (A.ListResources s ra).2 taskName
          (remoteFilter (A.ListResources s ra).1.1 p) p desired skipDeregister with
        calls := Call.ListResources ra ::
          (diffAndSyncCore A rel (A.ListResources s ra).2 taskName
            (remoteFilter (A.ListResources s ra).1.1 p) p desired skipDeregister).calls } := by
  unfold diffAndSync getIamResources
  simp only [h, getIamResources_realResources_eq, List.nil_append, List.singleton_append]

/-- `diffAndSyncInstances` after a successful listing. -/
theorem diffAndSyncInstances_of_listed (A : Authorize σ ρ η κ) (rel : String → Bool) (s : σ)
    (header : η) (taskName : String) (cond : κ) (p : String) (desired : List ρ)
    (skipDeregister : Bool) (h : (A.RawListResources s header cond).1.2 = none) :
    diffAndSyncInstances A rel s header taskName cond p desired skipDeregister =
      { diffAndSyncCore A rel (A.RawListResources s header cond).2 taskName
          (remoteFilter (A.RawListResources s header cond).1.1 p) p desired skipDeregister with
        calls := Call.RawListResources header cond ::
          (diffAndSyncCore A rel (A.RawListResources s header cond).2 taskName
            (remoteFilter (A.RawListResources s header cond).1.1 p) p desired
            skipDeregister).calls } := by
  unfold diffAndSyncInstances
  simp only [h, diffAndSyncInstances_realResources_eq, List.nil_append]

end Entries


/-- C16 (the listing entries are the core after the filter): when the listing call fails,
`diffAndSync` and `diffAndSyncInstances` return an error and their trace is the listing
call alone; when it returns `rs`, each entry returns what `diffAndSyncCore` returns on
`remoteFilter rs iamIDPrefix` and issues, after the listing call, exactly the calls of that
run of the core; so on the same listing result the two entries return the same value and
issue the same dry-run, register and deregister calls. -/
theorem entries_are_core_after_filter {σ ρ η κ : Type} (A : Authorize σ ρ η κ)
    (rel : String → Bool) (s : σ) (taskName : String) (ra : Option ρ) (header : η)
    (searchCondition : κ) (iamIDPrefix : String) (desired : List ρ) (skipDeregister : Bool) :
    ((A.ListResources s ra).1.2 ≠ none →
      (∃ e, (diffAndSync A rel s taskName ra iamIDPrefix desired skipDeregister).outcome
        = Outcome.returned (some e)) ∧
      (diffAndSync A rel s taskName ra iamIDPrefix desired skipDeregister).calls
        = [Call.ListResources ra]) ∧
    ((A.RawListResources s header searchCondition).1.2 ≠ none →
      (∃ e, (diffAndSyncInstances A rel s header taskName searchCondition iamIDPrefix desired
        skipDeregister).outcome = Outcome.returned (some e)) ∧
      (diffAndSyncInstances A rel s header taskName searchCondition iamIDPrefix desired
        skipDeregister).calls = [Call.RawListResources header searchCondition]) ∧
    ((A.ListResources s ra).1.2 = none →
      (diffAndSync A rel s taskName ra iamIDPrefix desired skipDeregister).outcome
        = (diffAndSyncCore A rel (A.ListResources s ra).2 taskName
            (remoteFilter (A.ListResources s ra).1.1 iamIDPrefix) iamIDPrefix desired
            skipDeregister).outcome ∧
      (diffAndSync A rel s taskName ra iamIDPrefix desired skipDeregister).calls
        = Call.ListResources ra ::
          (diffAndSyncCore A rel (A.ListResources s ra).2 taskName
            (remoteFilter (A.ListResources s ra).1.1 iamIDPrefix) iamIDPrefix desired
            skipDeregister).calls) ∧
    ((A.RawListResources s header searchCondition).1.2 = none →
      (diffAndSyncInstances A rel s header taskName searchCondition iamIDPrefix desired
        skipDeregister).outcome
        = (diffAndSyncCore A rel (A.RawListResources s header searchCondition).2 taskName
            (remoteFilter (A.RawListResources s header searchCondition).1.1 iamIDPrefix)
            iamIDPrefix desired skipDeregister).outcome ∧
      (diffAndSyncInstances A rel s header taskName searchCondition iamIDPrefix desired
        skipDeregister).calls
        = Call.RawListResources header searchCondition ::
          (diffAndSyncCore A rel (A.RawListResources s header searchCondition).2 taskName
            (remoteFilter (A.RawListResources s header searchCondition).1.1 iamIDPrefix)
            iamIDPrefix desired skipDeregister).calls) ∧
    ((A.ListResources s ra).1.2 = none →
      A.RawListResources s header searchCondition = A.ListResources s ra →
      (diffAndSync A rel s taskName ra iamIDPrefix desired skipDeregister).outcome
        = (diffAndSyncInstances A rel s header taskName searchCondition iamIDPrefix desired
            skipDeregister).outcome ∧
      (diffAndSync A rel s taskName ra iamIDPrefix desired skipDeregister).calls.tail
        = (diffAndSyncInstances A rel s header taskName searchCondition iamIDPrefix desired
            skipDeregister).calls.tail) := by
  refine ⟨?_, ?_, ?_, ?_, ?_⟩
  · intro h
    unfold diffAndSync getIamResources
    cases herr : (A.ListResources s ra).1.2 with
    | none => exact absurd herr h
    | some e =>
      simp [herr]
  · intro h
    unfold diffAndSyncInstances
    cases herr : (A.RawListResources s header searchCondition).1.2 with
    | none => exact absurd herr h
    | some e =>
      simp [herr]
  · intro h
    rw [diffAndSync_of_listed A rel s taskName ra iamIDPrefix desired skipDeregister h]
    exact ⟨rfl, rfl⟩
  · intro h
    rw [diffAndSyncInstances_of_listed A rel s header taskName searchCondition iamIDPrefix
      desired skipDeregister h]
    exact ⟨rfl, rfl⟩
  · intro h hsame
    have h2 : (A.RawListResources s header searchCondition).1.2 = none := by
      rw [hsame]; exact h
    rw [diffAndSync_of_listed A rel s taskName ra iamIDPrefix desired skipDeregister h,
      diffAndSyncInstances_of_listed A rel s header taskName searchCondition iamIDPrefix
        desired skipDeregister h2, hsame]
    exact ⟨rfl, rfl⟩

/-- Witness of C16: IAM lists four resources, of which hosts `1000` and `1001` pass the
filter `"10"`; both entries run the core on these two and deregister host `1001`. -/
theorem entries_are_core_after_filter_witness :
    remoteFilter [hostBackend "1000", hostBackend "2000", [], hostBackend "1001"] "10"
      = [hostBackend "1000", hostBackend "1001"] ∧
    (diffAndSync
        (scriptedIAM ([hostBackend "1000", hostBackend "2000", [], hostBackend "1001"], none)
          dryRunHosts) relNone () "task" none "10" ["1000"] false).calls
      = Call.ListResources none ::
        (diffAndSyncCore
          (scriptedIAM ([hostBackend "1000", hostBackend "2000", [], hostBackend "1001"], none)
            dryRunHosts) relNone () "task"
          (remoteFilter [hostBackend "1000", hostBackend "2000", [], hostBackend "1001"] "10")
          "10" ["1000"] false).calls ∧
    (diffAndSync
        (scriptedIAM ([hostBackend "1000", hostBackend "2000", [], hostBackend "1001"], none)
          dryRunHosts) relNone () "task" none "10" ["1000"] false).calls.tail
      = (diffAndSyncInstances
        (scriptedIAM ([hostBackend "1000", hostBackend "2000", [], hostBackend "1001"], none)
          dryRunHosts) relNone () () "task" () "10" ["1000"] false).calls.tail :=
  ⟨by decide,
    ((entries_are_core_after_filter
      (scriptedIAM ([hostBackend "1000", hostBackend "2000", [], hostBackend "1001"], none)
        dryRunHosts) relNone () "task" none () () "10" ["1000"] false).2.2.1 rfl).2,
    ((entries_are_core_after_filter
      (scriptedIAM ([hostBackend "1000", hostBackend "2000", [], hostBackend "1001"], none)
        dryRunHosts) relNone () "task" none () () "10" ["1000"] false).2.2.2.2 rfl rfl).2⟩


/-! ## How the classification loop is left -/

section Exit

variable {σ ρ η κ : Type}

/-- The exit of the classification loop, read off the replies. -/
theorem classify_exit (A : Authorize σ ρ η κ) (rs : List ρ) :
    ∀ (s : σ) (scope : ScopeInfo) (m : GoMap Nat) (nr : List ρ),
      (classify A rs s scope m nr).exit = loopExit (itemReplies A s rs) := by
  induction rs with
  | nil => intro s scope m nr; rfl
  | cons r rest ih =>
    intro s scope m nr
    rcases hrep : (A.DryRunRegisterResource s [r]).1 with ⟨info, err⟩
    simp only [itemReplies, hrep]
    cases err with
    | some e =>
      rw [classify_cons_error A r rest s scope m nr info e hrep]
      cases info <;> simp [loopExit]
    | none =>
      cases info with
      | none =>
        rw [classify_cons_nil A r rest s scope m nr hrep]
        simp [loopExit]
      | some info =>
        cases hsc : singleCanonical (some info, none) with
        | none =>
          rw [classify_cons_skip A r rest s scope m nr info hrep hsc]
          simp [loopExit, ih]
        | some c =>
          have hres := singleCanonical_some info c hsc
          cases hm : m (generateCMDBResourceKey c) with
          | some n =>
            rw [classify_cons_hit A r rest s scope m nr info c n hrep hres hm]
            simp [loopExit, ih]
          | none =>
            rw [classify_cons_miss A r rest s scope m nr info c hrep hres hm]
            simp [loopExit, ih]

/-- The calls of the classification loop: one single-item dry run for every desired item
up to and including the first one whose reply the loop cannot go on from. -/
theorem classify_calls (A : Authorize σ ρ η κ) (rs : List ρ) :
    ∀ (s : σ) (scope : ScopeInfo) (m : GoMap Nat) (nr : List ρ),
      (classify A rs s scope m nr).calls =
        (rs.take (issuedReplies (itemReplies A s rs)).length).map
          (fun r => Call.DryRunRegisterResource [r]) := by
  induction rs with
  | nil => intro s scope m nr; rfl
  | cons r rest ih =>
    intro s scope m nr
    rcases hrep : (A.DryRunRegisterResource s [r]).1 with ⟨info, err⟩
    simp only [itemReplies, hrep]
    cases err with
    | some e =>
      rw [classify_cons_error A r rest s scope m nr info e hrep]
      cases info <;> simp [issuedReplies, goodReply]
    | none =>
      cases info with
      | none =>
        rw [classify_cons_nil A r rest s scope m nr hrep]
        simp [issuedReplies, goodReply]
      | some info =>
        cases hsc : singleCanonical (some info, none) with
        | none =>
          rw [classify_cons_skip A r rest s scope m nr info hrep hsc]
          simp [issuedReplies, goodReply, ih]
        | some c =>
          have hres := singleCanonical_some info c hsc
          cases hm : m (generateCMDBResourceKey c) with
          | some n =>
            rw [classify_cons_hit A r rest s scope m nr info c n hrep hres hm]
            simp [issuedReplies, goodReply, ih]
          | none =>
            rw [classify_cons_miss A r rest s scope m nr info c hrep hres hm]
            simp [issuedReplies, goodReply, ih]

theorem itemReplies_append (A : Authorize σ ρ η κ) (pre rest : List ρ) :
    ∀ s : σ, itemReplies A s (pre ++ rest)
      = itemReplies A s pre ++ itemReplies A (stateAfterItems A s pre) rest := by
  induction pre with
  | nil => intro s; rfl
  | cons r rs ih => intro s; simp [itemReplies, stateAfterItems, ih]

theorem itemReplies_length (A : Authorize σ ρ η κ) (rs : List ρ) :
    ∀ s : σ, (itemReplies A s rs).length = rs.length := by
  induction rs with
  | nil => intro s; rfl
  | cons r rest ih => intro s; simp [itemReplies, ih]

theorem loopExit_append_of_good (pre rest : List DryRunReply)
    (h : pre.all goodReply = true) : loopExit (pre ++ rest) = loopExit rest := by
  induction pre with
  | nil => rfl
  | cons r rs ih =>
    simp only [List.all_cons, Bool.and_eq_true] at h
    obtain ⟨info, err⟩ := r
    cases info <;> cases err <;> simp_all [goodReply, loopExit]

theorem issuedReplies_append_of_good (pre rest : List DryRunReply)
    (h : pre.all goodReply = true) :
    issuedReplies (pre ++ rest) = pre ++ issuedReplies rest := by
  induction pre with
  | nil => rfl
  | cons r rs ih =>
    simp only [List.all_cons, Bool.and_eq_true] at h
    simp [issuedReplies, h.1, ih h.2]

/-- When no reply the loop receives is a nil result with a nil error, the loop is left
early exactly when some reply is an error, and then by returning an error. -/
theorem loopExit_of_noNil (replies : List DryRunReply)
    (h : noNilReply (issuedReplies replies) = true) :
    (noItemFails replies = true ∧ loopExit replies = none) ∨
    (noItemFails replies = false ∧ ∃ e, loopExit replies = some (Outcome.returned (some e))) := by
  induction replies with
  | nil => exact Or.inl ⟨rfl, rfl⟩
  | cons r rs ih =>
    obtain ⟨info, err⟩ := r
    cases err with
    | some e =>
      exact Or.inr ⟨by simp [noItemFails], e, by cases info <;> rfl⟩
    | none =>
      cases info with
      | none => simp [issuedReplies, goodReply, noNilReply] at h
      | some info =>
        have h2 : noNilReply (issuedReplies rs) = true := by
          simp only [issuedReplies, goodReply, Option.isSome_some, Option.isNone_none,
            Bool.and_self, if_true, noNilReply, List.all_cons, Bool.and_eq_true] at h
          simpa [noNilReply] using h.2
        rcases ih h2 with ⟨h3, h4⟩ | ⟨h3, e, h4⟩
        · refine Or.inl ⟨?_, ?_⟩
          · simp only [noItemFails, List.all_cons, Option.isNone_none, Bool.true_and]
            exact h3
          · simp only [loopExit]; exact h4
        · refine Or.inr ⟨?_, e, ?_⟩
          · simp only [noItemFails, List.all_cons, Option.isNone_none, Bool.true_and]
            exact h3
          · simp only [loopExit]; exact h4

end Exit


/-! ## Error results -/

/-- C12 (error result characterisation): assume every per-item dry run the loop receives
without an error has a non-nil result. Then `diffAndSyncCore` returns an error if and only
if (a) the batch dry run returns a nil result with a nil error, or (b) the batch dry run
passes the gates (no error, non-nil, a first canonical whose type is not id-correlated)
and the per-item dry run of some desired item returns an error; in every other case it
returns nil. -/
theorem error_result_characterisation {σ ρ η κ : Type} (A : Authorize σ ρ η κ)
    (rel : String → Bool) (s : σ) (taskName : String) (remote : List BackendResource)
    (iamIDPrefix : String) (desired : List ρ) (skipDeregister : Bool)
    (hnil : passesGates rel (A.DryRunRegisterResource s desired).1 = true →
      noNilReply (issuedReplies (coreReplies A s desired)) = true) :
    ((∃ e, (diffAndSyncCore A rel s taskName remote iamIDPrefix desired skipDeregister).outcome
        = Outcome.returned (some e)) ↔
      ((A.DryRunRegisterResource s desired).1 = (none, none) ∨
        (passesGates rel (A.DryRunRegisterResource s desired).1 = true ∧
          noItemFails (coreReplies A s desired) = false))) ∧
    (¬ ((A.DryRunRegisterResource s desired).1 = (none, none) ∨
        (passesGates rel (A.DryRunRegisterResource s desired).1 = true ∧
          noItemFails (coreReplies A s desired) = false)) →
      (diffAndSyncCore A rel s taskName remote iamIDPrefix desired skipDeregister).outcome
        = Outcome.returned none) := by
  rw [core_outcome]
  by_cases hg : passesGates rel (A.DryRunRegisterResource s desired).1 = true
  · have hbatch : (A.DryRunRegisterResource s desired).1 ≠ (none, none) := by
      intro h
      rw [h] at hg
      simp [passesGates] at hg
    have hexit : (coreLoop A s remote desired).exit = loopExit (coreReplies A s desired) := by
      unfold coreLoop coreReplies
      exact classify_exit A desired _ _ _ _
    rw [if_pos hg, hexit]
    rcases loopExit_of_noNil _ (hnil hg) with ⟨h3, h4⟩ | ⟨h3, e, h4⟩
    · rw [h4]
      refine ⟨⟨?_, ?_⟩, fun _ => rfl⟩
      · rintro ⟨e, he⟩
        simp at he
      · rintro (h | ⟨_, h⟩)
        · exact absurd h hbatch
        · rw [h3] at h
          simp at h
    · rw [h4]
      refine ⟨⟨fun _ => Or.inr ⟨hg, h3⟩, fun _ => ⟨e, rfl⟩⟩, fun h => ?_⟩
      exact absurd (Or.inr ⟨hg, h3⟩) h
  · rw [if_neg hg]
    rcases hrep : (A.DryRunRegisterResource s desired).1 with ⟨info, err⟩
    cases info with
    | none =>
      cases err with
      | none =>
        simp only [Option.isNone_none, Bool.and_self, if_true]
        exact ⟨⟨fun _ => Or.inl trivial, fun _ => ⟨_, rfl⟩⟩,
          fun h => absurd (Or.inl trivial) h⟩
      | some e0 =>
        simp only [Option.isNone_none, Option.isNone_some, Bool.and_false]
        refine ⟨⟨?_, ?_⟩, fun _ => rfl⟩
        · rintro ⟨e, he⟩
          simp at he
        · rintro (h | ⟨h, _⟩)
          · simp at h
          · rw [hrep] at hg
            exact absurd h hg
    | some info0 =>
      simp only [Option.isNone_some, Bool.false_and]
      refine ⟨⟨?_, ?_⟩, fun _ => rfl⟩
      · rintro ⟨e, he⟩
        simp at he
      · rintro (h | ⟨h, _⟩)
        · simp at h
        · rw [hrep] at hg
          exact absurd h hg

/-- Witness of C12: the gates are passed, the item `1000` is normalised and the item `bad`
fails, so the core returns an error. -/
theorem error_result_characterisation_witness :
    noNilReply (issuedReplies
        (coreReplies (scriptedIAM ([], none) dryRunGhostBad) () ["1000", "bad"])) = true ∧
    ∃ e, (diffAndSyncCore (scriptedIAM ([], none) dryRunGhostBad) relNone () "task"
        [hostBackend "1001"] "10" ["1000", "bad"] false).outcome
      = Outcome.returned (some e) :=
  ⟨by decide,
    (error_result_characterisation (scriptedIAM ([], none) dryRunGhostBad) relNone () "task"
      [hostBackend "1001"] "10" ["1000", "bad"] false (fun _ => by decide)).1.mpr
      (Or.inr ⟨by decide, by decide⟩)⟩


/-! ## Abort at the first per-item error -/

/-- C13 (a per-item normalisation error aborts): let the desired list `pre ++ d :: post`
pass the batch gates and let the per-item dry run of `d`, at position `j = len(pre)`, be
the first to return an error `e`: every item before it gets a nil error with a non-nil
result, which is what it takes for the dry run of `d` to be issued, and the dry run of `d`
returns `e`. Then `diffAndSyncCore` returns exactly `e`, its trace is the batch dry run
followed by the single-item dry runs of the items up to position `j`, so no dry run is
issued for an item of `post`, and it issues no register and no deregister call, whatever
the items of `pre` were classified as. -/
theorem core_abort_at_first_error {σ ρ η κ : Type} (A : Authorize σ ρ η κ)
    (rel : String → Bool) (s : σ) (taskName : String) (remote : List BackendResource)
    (iamIDPrefix : String) (pre : List ρ) (d : ρ) (post : List ρ) (skipDeregister : Bool)
    (info : Option RegisterInfo) (e : Err)
    (hg : passesGates rel (A.DryRunRegisterResource s (pre ++ d :: post)).1 = true)
    (hpre : (itemReplies A (A.DryRunRegisterResource s (pre ++ d :: post)).2 pre).all
      goodReply = true)
    (hd : (A.DryRunRegisterResource
      (stateAfterItems A (A.DryRunRegisterResource s (pre ++ d :: post)).2 pre) [d]).1
      = (info, some e)) :
    (diffAndSyncCore A rel s taskName remote iamIDPrefix (pre ++ d :: post)
        skipDeregister).outcome = Outcome.returned (some e) ∧
    (diffAndSyncCore A rel s taskName remote iamIDPrefix (pre ++ d :: post)
        skipDeregister).calls
      = Call.DryRunRegisterResource (pre ++ d :: post) ::
        (pre ++ [d]).map (fun r => Call.DryRunRegisterResource [r]) ∧
    registerCalls (diffAndSyncCore A rel s taskName remote iamIDPrefix (pre ++ d :: post)
        skipDeregister).calls = [] ∧
    deregisterCalls (diffAndSyncCore A rel s taskName remote iamIDPrefix (pre ++ d :: post)
        skipDeregister).calls = [] := by
  have hreplies : itemReplies A (A.DryRunRegisterResource s (pre ++ d :: post)).2
      (pre ++ d :: post)
      = itemReplies A (A.DryRunRegisterResource s (pre ++ d :: post)).2 pre ++
        (info, some e) :: itemReplies A
          (A.DryRunRegisterResource
            (stateAfterItems A (A.DryRunRegisterResource s (pre ++ d :: post)).2 pre) [d]).2
          post := by
    rw [itemReplies_append]
    simp only [itemReplies, hd]
  have hexit : (coreLoop A s remote (pre ++ d :: post)).exit
      = some (Outcome.returned (some e)) := by
    unfold coreLoop
    rw [classify_exit, hreplies, loopExit_append_of_good _ _ hpre]
    cases info <;> rfl
  have hcalls : (coreLoop A s remote (pre ++ d :: post)).calls
      = (pre ++ [d]).map (fun r => Call.DryRunRegisterResource [r]) := by
    unfold coreLoop
    rw [classify_calls, hreplies, issuedReplies_append_of_good _ _ hpre]
    have hlen : (itemReplies A (A.DryRunRegisterResource s (pre ++ d :: post)).2 pre ++
        issuedReplies ((info, some e) :: itemReplies A
          (A.DryRunRegisterResource
            (stateAfterItems A (A.DryRunRegisterResource s (pre ++ d :: post)).2 pre) [d]).2
          post)).length = (pre ++ [d]).length := by
      cases info <;> simp [issuedReplies, goodReply, itemReplies_length]
    rw [hlen]
    have htake : (pre ++ d :: post).take (pre ++ [d]).length = pre ++ [d] := by
      have : pre ++ d :: post = (pre ++ [d]) ++ post := by simp
      rw [this, List.take_left]
    rw [htake]
  have hexit2 : (coreLoop A s remote (pre ++ d :: post)).exit.isNone = false := by
    rw [hexit]; rfl
  refine ⟨?_, ?_, ?_, ?_⟩
  · rw [core_classified A rel s taskName remote iamIDPrefix _ skipDeregister hg, hexit]
  · rw [core_classified A rel s taskName remote iamIDPrefix _ skipDeregister hg, hexit]
    simp only [hcalls]
  · rw [core_registerCalls, hexit2]
    simp
  · rw [core_deregisterCalls, hexit2]
    simp

/-- Witness of C13: desired is `["1000", "bad", "1001"]` with no remote resource; host
`1000` is classified as needing registration, then the dry run of `bad` returns an error;
the core returns that error, issues no dry run for `1001` and no register call. -/
theorem core_abort_at_first_error_witness :
    (coreLoop (scriptedIAM ([], none) dryRunGhostBad) () []
        ["1000", "bad", "1001"]).needRegister = ["1000"] ∧
    (diffAndSyncCore (scriptedIAM ([], none) dryRunGhostBad) relNone () "task"
        [] "10" (["1000"] ++ "bad" :: ["1001"]) false).outcome
      = Outcome.returned (some "normalisation failed") ∧
    (diffAndSyncCore (scriptedIAM ([], none) dryRunGhostBad) relNone () "task"
        [] "10" (["1000"] ++ "bad" :: ["1001"]) false).calls
      = Call.DryRunRegisterResource (["1000"] ++ "bad" :: ["1001"]) ::
        (["1000"] ++ ["bad"]).map (fun r => Call.DryRunRegisterResource [r]) ∧
    registerCalls (diffAndSyncCore (scriptedIAM ([], none) dryRunGhostBad) relNone () "task"
        [] "10" (["1000"] ++ "bad" :: ["1001"]) false).calls = [] ∧
    deregisterCalls (diffAndSyncCore (scriptedIAM ([], none) dryRunGhostBad) relNone () "task"
        [] "10" (["1000"] ++ "bad" :: ["1001"]) false).calls = [] :=
  ⟨by decide,
    core_abort_at_first_error (scriptedIAM ([], none) dryRunGhostBad) relNone () "task" []
      "10" ["1000"] "bad" ["1001"] false none "normalisation failed"
      (by decide) (by decide) rfl⟩

/-! ## Ambiguous items -/

section Ambiguous

variable {σ ρ η κ : Type}

/-- A loop over `pre ++ rest` whose part over `pre` runs to its end continues over `rest`
from the IAM state, scope, hit map and `needRegister` left by the part over `pre`. -/
theorem classify_append (A : Authorize σ ρ η κ) (pre rest : List ρ) :
    ∀ (s : σ) (scope : ScopeInfo) (m : GoMap Nat) (nr : List ρ),
      (classify A pre s scope m nr).exit = none →
      classify A (pre ++ rest) s scope m nr =
        { classify A rest (classify A pre s scope m nr).state
            (classify A pre s scope m nr).scope
            (classify A pre s scope m nr).iamResourceKeyMap
            (classify A pre s scope m nr).needRegister with
          calls := (classify A pre s scope m nr).calls ++
            (classify A rest (classify A pre s scope m nr).state
              (classify A pre s scope m nr).scope
              (classify A pre s scope m nr).iamResourceKeyMap
              (classify A pre s scope m nr).needRegister).calls } := by
  induction pre with
  | nil => intro s scope m nr _; rfl
  | cons r rs ih =>
    intro s scope m nr hexit
    rcases hrep : (A.DryRunRegisterResource s [r]).1 with ⟨info, err⟩
    rw [List.cons_append]
    cases err with
    | some e =>
      rw [classify_cons_error A r rs s scope m nr info e hrep] at hexit
      simp at hexit
    | none =>
      cases info with
      | none =>
        rw [classify_cons_nil A r rs s scope m nr hrep] at hexit
        simp at hexit
      | some info =>
        cases hsc : singleCanonical (some info, none) with
        | none =>
          rw [classify_cons_skip A r rs s scope m nr info hrep hsc] at hexit ⊢
          rw [classify_cons_skip A r (rs ++ rest) s scope m nr info hrep hsc]
          rw [ih _ _ _ _ hexit]
          simp
        | some c =>
          have hres := singleCanonical_some info c hsc
          cases hm : m (generateCMDBResourceKey c) with
          | some n =>
            rw [classify_cons_hit A r rs s scope m nr info c n hrep hres hm] at hexit ⊢
            rw [classify_cons_hit A r (rs ++ rest) s scope m nr info c n hrep hres hm]
            rw [ih _ _ _ _ hexit]
            simp
          | none =>
            rw [classify_cons_miss A r rs s scope m nr info c hrep hres hm] at hexit ⊢
            rw [classify_cons_miss A r (rs ++ rest) s scope m nr info c hrep hres hm]
            rw [ih _ _ _ _ hexit]
            simp

/-- What the loop decides (exit, scope, hit map, `needRegister`) depends on the IAM state
only through the replies of the per-item dry runs. -/
theorem classify_replies_congr (A : Authorize σ ρ η κ) (rs : List ρ) :
    ∀ (s s2 : σ) (scope : ScopeInfo) (m : GoMap Nat) (nr : List ρ),
      itemReplies A s rs = itemReplies A s2 rs →
      (classify A rs s scope m nr).exit = (classify A rs s2 scope m nr).exit ∧
      (classify A rs s scope m nr).scope = (classify A rs s2 scope m nr).scope ∧
      (classify A rs s scope m nr).iamResourceKeyMap
        = (classify A rs s2 scope m nr).iamResourceKeyMap ∧
      (classify A rs s scope m nr).needRegister
        = (classify A rs s2 scope m nr).needRegister := by
  induction rs with
  | nil => intro s s2 scope m nr _; exact ⟨rfl, rfl, rfl, rfl⟩
  | cons r rest ih =>
    intro s s2 scope m nr hsame
    simp only [itemReplies, List.cons.injEq] at hsame
    obtain ⟨hhead, htail⟩ := hsame
    rcases hrep : (A.DryRunRegisterResource s [r]).1 with ⟨info, err⟩
    have hrep2 : (A.DryRunRegisterResource s2 [r]).1 = (info, err) := by
      rw [← hhead]; exact hrep
    cases err with
    | some e =>
      rw [classify_cons_error A r rest s scope m nr info e hrep,
        classify_cons_error A r rest s2 scope m nr info e hrep2]
      exact ⟨rfl, rfl, rfl, rfl⟩
    | none =>
      cases info with
      | none =>
        rw [classify_cons_nil A r rest s scope m nr hrep,
          classify_cons_nil A r rest s2 scope m nr hrep2]
        exact ⟨rfl, rfl, rfl, rfl⟩
      | some info =>
        cases hsc : singleCanonical (some info, none) with
        | none =>
          rw [classify_cons_skip A r rest s scope m nr info hrep hsc,
            classify_cons_skip A r rest s2 scope m nr info hrep2 hsc]
          exact ih _ _ scope m nr htail
        | some c =>
          have hres := singleCanonical_some info c hsc
          cases hm : m (generateCMDBResourceKey c) with
          | some n =>
            rw [classify_cons_hit A r rest s scope m nr info c n hrep hres hm,
              classify_cons_hit A r rest s2 scope m nr info c n hrep2 hres hm]
            exact ih _ _ _ _ nr htail
          | none =>
            rw [classify_cons_miss A r rest s scope m nr info c hrep hres hm,
              classify_cons_miss A r rest s2 scope m nr info c hrep2 hres hm]
            exact ih _ _ _ m _ htail

end Ambiguous


/-- C14 (an ambiguous item is skipped): let the loop run to the end of the items `pre`
before an item `d` whose per-item dry run succeeds with a non-nil result holding a number
of canonicals other than 1. Then the iteration on `d` issues its dry run and nothing
else: the items `post` after `d` are classified from the scope, the hit map and the
`needRegister` list left by `pre`, so `d` is not appended to `needRegister`, increments no
hit count, does not change the scope and does not end the loop with an error. And when
the items after `d` get the same dry-run replies with and without the dry run of `d`, the
loop over the list with `d` and the loop over the list without `d` end the same way with
the same scope, hit map and `needRegister`. -/
theorem ambiguous_item_is_skipped {σ ρ η κ : Type} (A : Authorize σ ρ η κ)
    (pre : List ρ) (d : ρ) (post : List ρ) (s : σ) (scope : ScopeInfo) (m : GoMap Nat)
    (nr : List ρ) (info : RegisterInfo)
    (hpre : (classify A pre s scope m nr).exit = none)
    (hd : (A.DryRunRegisterResource (classify A pre s scope m nr).state [d]).1
      = (some info, none))
    (hamb : info.Resources.length ≠ 1) :
    classify A (pre ++ d :: post) s scope m nr =
      { classify A post
          (A.DryRunRegisterResource (classify A pre s scope m nr).state [d]).2
          (classify A pre s scope m nr).scope
          (classify A pre s scope m nr).iamResourceKeyMap
          (classify A pre s scope m nr).needRegister with
        calls := (classify A pre s scope m nr).calls ++
          Call.DryRunRegisterResource [d] ::
          (classify A post
            (A.DryRunRegisterResource (classify A pre s scope m nr).state [d]).2
            (classify A pre s scope m nr).scope
            (classify A pre s scope m nr).iamResourceKeyMap
            (classify A pre s scope m nr).needRegister).calls } ∧
    (itemReplies A (A.DryRunRegisterResource (classify A pre s scope m nr).state [d]).2 post
        = itemReplies A (classify A pre s scope m nr).state post →
      (classify A (pre ++ d :: post) s scope m nr).exit
        = (classify A (pre ++ post) s scope m nr).exit ∧
      (classify A (pre ++ d :: post) s scope m nr).scope
        = (classify A (pre ++ post) s scope m nr).scope ∧
      (classify A (pre ++ d :: post) s scope m nr).iamResourceKeyMap
        = (classify A (pre ++ post) s scope m nr).iamResourceKeyMap ∧
      (classify A (pre ++ d :: post) s scope m nr).needRegister
        = (classify A (pre ++ post) s scope m nr).needRegister) := by
  have hsc : singleCanonical (some info, none) = none := by
    unfold singleCanonical
    cases hr : info.Resources with
    | nil => simp [hr]
    | cons c cs =>
      cases cs with
      | nil => rw [hr] at hamb; simp at hamb
      | cons c2 cs2 => simp [hr]
  have hwith : classify A (pre ++ d :: post) s scope m nr =
      { classify A post
          (A.DryRunRegisterResource (classify A pre s scope m nr).state [d]).2
          (classify A pre s scope m nr).scope
          (classify A pre s scope m nr).iamResourceKeyMap
          (classify A pre s scope m nr).needRegister with
        calls := (classify A pre s scope m nr).calls ++
          Call.DryRunRegisterResource [d] ::
          (classify A post
            (A.DryRunRegisterResource (classify A pre s scope m nr).state [d]).2
            (classify A pre s scope m nr).scope
            (classify A pre s scope m nr).iamResourceKeyMap
            (classify A pre s scope m nr).needRegister).calls } := by
    rw [classify_append A pre (d :: post) s scope m nr hpre,
      classify_cons_skip A d post _ _ _ _ info hd hsc]
  refine ⟨hwith, fun hsame => ?_⟩
  rw [hwith, classify_append A pre post s scope m nr hpre]
  exact classify_replies_congr A post _ _ _ _ _ hsame

/-- Witness of C14 (scenario 6): desired is `["1000", "blank"]`, host `1000` gets one
canonical with a new key and `blank` gets no canonical; the run registers `["1000"]` only,
and the loop ends with the same `needRegister` as the loop over `["1000"]` alone. -/
theorem ambiguous_item_is_skipped_witness :
    (diffAndSyncCore (scriptedIAM ([], none) dryRunBlank) relNone () "task"
        [] "10" ["1000", "blank"] false).calls
      = [Call.DryRunRegisterResource ["1000", "blank"], Call.DryRunRegisterResource ["1000"],
          Call.DryRunRegisterResource ["blank"], Call.RegisterResource ["1000"]] ∧
    (classify (scriptedIAM ([], none) dryRunBlank) (["1000"] ++ "blank" :: []) ()
        ⟨"", ""⟩ (fun _ => none) []).needRegister
      = (classify (scriptedIAM ([], none) dryRunBlank) (["1000"] ++ []) ()
        ⟨"", ""⟩ (fun _ => none) []).needRegister :=
  ⟨by decide,
    ((ambiguous_item_is_skipped (scriptedIAM ([], none) dryRunBlank) ["1000"] "blank" [] ()
      ⟨"", ""⟩ (fun _ => none) [] ⟨[]⟩ rfl rfl (by decide)).2 rfl).2.2.2⟩


/-! ## Idempotence against a truthful IAM -/

section Idempotence

variable {ρ : Type}

theorem truthful_itemReplies (dryRun : List ρ → DryRunReply) (stored : ρ → BackendResource)
    (rs : List ρ) :
    ∀ S : List BackendResource,
      itemReplies (truthfulIAM dryRun stored) S rs = rs.map (fun d => dryRun [d]) := by
  induction rs with
  | nil => intro S; rfl
  | cons r rest ih =>
    intro S
    have h1 : ((truthfulIAM dryRun stored).DryRunRegisterResource S [r]).1 = dryRun [r] := rfl
    have h2 : ((truthfulIAM dryRun stored).DryRunRegisterResource S [r]).2 = S := rfl
    simp only [itemReplies, List.map_cons, h1, h2, ih]

theorem truthful_coreReplies (dryRun : List ρ → DryRunReply) (stored : ρ → BackendResource)
    (S : List BackendResource) (desired : List ρ) :
    coreReplies (truthfulIAM dryRun stored) S desired = desired.map (fun d => dryRun [d]) := by
  unfold coreReplies
  exact truthful_itemReplies dryRun stored desired _

/-- The per-item dry runs leave the state of the truthful IAM alone. -/
theorem truthful_classify_state (dryRun : List ρ → DryRunReply)
    (stored : ρ → BackendResource) (rs : List ρ) :
    ∀ (S : List BackendResource) (scope : ScopeInfo) (m : GoMap Nat) (nr : List ρ),
      (classify (truthfulIAM dryRun stored) rs S scope m nr).state = S := by
  induction rs with
  | nil => intro S scope m nr; rfl
  | cons r rest ih =>
    intro S scope m nr
    rcases hrep : ((truthfulIAM dryRun stored).DryRunRegisterResource S [r]).1
      with ⟨info, err⟩
    have hst : ((truthfulIAM dryRun stored).DryRunRegisterResource S [r]).2 = S := rfl
    cases err with
    | some e =>
      rw [classify_cons_error _ r rest S scope m nr info e hrep]
      exact hst
    | none =>
      cases info with
      | none =>
        rw [classify_cons_nil _ r rest S scope m nr hrep]
        exact hst
      | some info =>
        cases hsc : singleCanonical (some info, none) with
        | none =>
          rw [classify_cons_skip _ r rest S scope m nr info hrep hsc]
          simp only [hst]
          exact ih S _ _ _
        | some c =>
          have hres := singleCanonical_some info c hsc
          cases hm : m (generateCMDBResourceKey c) with
          | some n =>
            rw [classify_cons_hit _ r rest S scope m nr info c n hrep hres hm]
            simp only [hst]
            exact ih S _ _ _
          | none =>
            rw [classify_cons_miss _ r rest S scope m nr info c hrep hres hm]
            simp only [hst]
            exact ih S _ _ _

/-- With replies that are a function of the item, the items to register are the desired
items that are new. -/
theorem toRegister_map (remote : List BackendResource) (desired : List ρ)
    (f : ρ → DryRunReply) :
    toRegister remote desired (desired.map f)
      = desired.filter (fun d => isNewItem remote (f d)) := by
  unfold toRegister
  induction desired with
  | nil => rfl
  | cons d ds ih =>
    simp only [List.map_cons, List.zip_cons_cons, List.filter_cons]
    by_cases h : isNewItem remote (f d) = true
    · simp only [h, if_true, List.map_cons, ih]
    · have h2 : isNewItem remote (f d) = false := by simpa using h
      simp only [h2]
      simpa using ih

theorem isNewItem_eq_true (remote : List BackendResource) (reply : DryRunReply) :
    isNewItem remote reply = true ↔
      ∃ c, singleCanonical reply = some c ∧
        ∀ b ∈ remote, generateCMDBResourceKey c ≠ generateIAMResourceKey b := by
  unfold isNewItem
  cases singleCanonical reply with
  | none => simp
  | some c => simp

theorem hitsOf_pos (replies : List DryRunReply) (r : DryRunReply) (c : ResourceEntity)
    (hr : r ∈ replies) (hc : singleCanonical r = some c) :
    hitsOf replies (generateCMDBResourceKey c) ≠ 0 := by
  unfold hitsOf
  have hpos : 0 < List.countP (fun r =>
      match singleCanonical r with
      | some c2 => decide (generateCMDBResourceKey c2 = generateCMDBResourceKey c)
      | none => false) replies := by
    rw [List.countP_pos_iff]
    exact ⟨r, hr, by simp [hc]⟩
  omega

theorem mem_toDeregister (remote : List BackendResource) (replies : List DryRunReply)
    (b : BackendResource) :
    b ∈ toDeregister remote replies ↔
      b ∈ remote ∧ hitsOf replies (generateIAMResourceKey b) = 0 := by
  unfold toDeregister
  simp [List.mem_filter]

theorem truthful_registerStep_state (dryRun : List ρ → DryRunReply)
    (stored : ρ → BackendResource) (S : List BackendResource) (nr : List ρ) :
    (registerStep (truthfulIAM dryRun stored) S nr).2 = S ++ nr.map stored := by
  unfold registerStep
  cases nr with
  | nil => simp
  | cons d ds => simp [truthfulIAM]

/-- The state the deregister step leaves in the truthful IAM: nothing is added, what is
not among the zero-hit remote resources stays, and when a deregister call is due the
zero-hit remote resources are gone. -/
theorem truthful_deregisterStep_state (dryRun : List ρ → DryRunReply)
    (stored : ρ → BackendResource) (S : List BackendResource)
    (remote : List BackendResource) (desired : List ρ) (skipDeregister : Bool)
    (scope : ScopeInfo) (m : GoMap Nat) (b : BackendResource) :
    (b ∈ (deregisterStep (truthfulIAM dryRun stored) S remote desired skipDeregister
        scope m).2 → b ∈ S) ∧
    (b ∈ S → b ∉ remote.filter (fun r => hitCount m (generateIAMResourceKey r) = 0) →
      b ∈ (deregisterStep (truthfulIAM dryRun stored) S remote desired skipDeregister
        scope m).2) ∧
    (skipDeregister = false → desired ≠ [] →
      b ∈ (deregisterStep (truthfulIAM dryRun stored) S remote desired skipDeregister
        scope m).2 →
      b ∉ remote.filter (fun r => hitCount m (generateIAMResourceKey r) = 0)) := by
  unfold deregisterStep
  cases skipDeregister with
  | true =>
    simp only [if_true]
    exact ⟨fun h => h, fun h _ => h, fun h => absurd h (by simp)⟩
  | false =>
    cases desired with
    | nil =>
      simp only [List.length_nil, if_true, Bool.false_eq_true, if_false]
      exact ⟨fun h => h, fun h _ => h, fun _ h => absurd rfl h⟩
    | cons d ds =>
      cases hM : remote.filter (fun r => hitCount m (generateIAMResourceKey r) = 0) with
      | nil => simp [hM]
      | cons x xs =>
        simp only [hM, truthfulIAM]
        simp
        exact ⟨fun h _ _ => h, fun h h1 h2 => ⟨h, h1, h2⟩⟩

/-- The state of the truthful IAM after a run of the core that passes the gates and whose
loop runs to its end. -/
theorem truthful_core_state (dryRun : List ρ → DryRunReply) (stored : ρ → BackendResource)
    (rel : String → Bool) (S : List BackendResource) (taskName : String)
    (remote : List BackendResource) (iamIDPrefix : String) (desired : List ρ)
    (skipDeregister : Bool)
    (hg : passesGates rel
      ((truthfulIAM dryRun stored).DryRunRegisterResource S desired).1 = true)
    (hexit : (coreLoop (truthfulIAM dryRun stored) S remote desired).exit = none) :
    (diffAndSyncCore (truthfulIAM dryRun stored) rel S taskName remote iamIDPrefix desired
        skipDeregister).state
      = (deregisterStep (truthfulIAM dryRun stored)
          (S ++ (coreLoop (truthfulIAM dryRun stored) S remote desired).needRegister.map
            stored)
          remote desired skipDeregister
          (coreLoop (truthfulIAM dryRun stored) S remote desired).scope
          (coreLoop (truthfulIAM dryRun stored) S remote desired).iamResourceKeyMap).2 := by
  rw [core_classified _ rel S taskName remote iamIDPrefix desired skipDeregister hg, hexit]
  simp only [truthful_registerStep_state]
  have hst : (coreLoop (truthfulIAM dryRun stored) S remote desired).state = S := by
    unfold coreLoop
    exact truthful_classify_state dryRun stored desired _ _ _ _
  rw [hst]

/-- The second of two runs of the core against the truthful IAM, each on the filtered
content of IAM, issues no register and no deregister call. -/
theorem truthful_core_second_run (dryRun : List ρ → DryRunReply)
    (stored : ρ → BackendResource) (rel : String → Bool) (S S1 : List BackendResource)
    (taskName : String) (p : String) (desired : List ρ) (skipDeregister : Bool)
    (hstored : ∀ d ∈ desired, ∀ c, singleCanonical (dryRun [d]) = some c →
      layerPath (stored d) = idPath c ∧ LeafHasPrefix p (stored d))
    (hS1 : S1 = (diffAndSyncCore (truthfulIAM dryRun stored) rel S taskName
      (remoteFilter S p) p desired skipDeregister).state) :
    registerCalls (diffAndSyncCore (truthfulIAM dryRun stored) rel S1 taskName
        (remoteFilter S1 p) p desired skipDeregister).calls = [] ∧
    deregisterCalls (diffAndSyncCore (truthfulIAM dryRun stored) rel S1 taskName
        (remoteFilter S1 p) p desired skipDeregister).calls = [] := by
  have hbatch : ∀ S2, ((truthfulIAM dryRun stored).DryRunRegisterResource S2 desired).1
      = dryRun desired := fun _ => rfl
  have hexit : ∀ S2 remote2, (coreLoop (truthfulIAM dryRun stored) S2 remote2 desired).exit.isNone
      = (desired.map (fun d => dryRun [d])).all goodReply := by
    intro S2 remote2
    unfold coreLoop
    rw [classify_exit_isNone, truthful_itemReplies]
  rw [core_registerCalls, core_deregisterCalls, hbatch, hexit]
  by_cases hg : passesGates rel (dryRun desired) = true
  swap
  · have hg2 : passesGates rel (dryRun desired) = false := by simpa using hg
    simp [hg2]
  by_cases hgood : (desired.map (fun d => dryRun [d])).all goodReply = true
  swap
  · have hgood2 : (desired.map (fun d => dryRun [d])).all goodReply = false := by
      simpa using hgood
    simp [hgood2]
  -- the first run
  have hgood1 : (coreReplies (truthfulIAM dryRun stored) S desired).all goodReply = true := by
    rw [truthful_coreReplies]; exact hgood
  obtain ⟨hL1, hM1, _⟩ := coreLoop_complete (truthfulIAM dryRun stored) S (remoteFilter S p)
    desired hgood1
  rw [truthful_coreReplies] at hL1 hM1
  rw [toRegister_map] at hL1
  have hexit1 : (coreLoop (truthfulIAM dryRun stored) S (remoteFilter S p) desired).exit
      = none := by
    have h := hexit S (remoteFilter S p)
    rw [hgood] at h
    exact Option.isNone_iff_eq_none.mp h
  have hstate := truthful_core_state dryRun stored rel S taskName (remoteFilter S p) p desired
    skipDeregister (by rw [hbatch]; exact hg) hexit1
  rw [← hS1, hL1] at hstate
  have hfacts := fun b => truthful_deregisterStep_state dryRun stored
    (S ++ (desired.filter (fun d => isNewItem (remoteFilter S p) (dryRun [d]))).map stored)
    (remoteFilter S p) desired skipDeregister
    (coreLoop (truthfulIAM dryRun stored) S (remoteFilter S p) desired).scope
    (coreLoop (truthfulIAM dryRun stored) S (remoteFilter S p) desired).iamResourceKeyMap b
  rw [← hstate, hM1] at hfacts
  -- the second run
  have hgood2 : (coreReplies (truthfulIAM dryRun stored) S1 desired).all goodReply = true := by
    rw [truthful_coreReplies]; exact hgood
  obtain ⟨hL2, hM2, _⟩ := coreLoop_complete (truthfulIAM dryRun stored) S1 (remoteFilter S1 p)
    desired hgood2
  rw [truthful_coreReplies] at hL2 hM2
  rw [toRegister_map] at hL2
  rw [hL2, hM2]
  have hkey : ∀ d ∈ desired, ∀ c, singleCanonical (dryRun [d]) = some c →
      generateIAMResourceKey (stored d) = generateCMDBResourceKey c := by
    intro d hd c hc
    rw [generateIAMResourceKey_eq, generateCMDBResourceKey_eq, (hstored d hd c hc).1]
  have hhit : ∀ d ∈ desired, ∀ c, singleCanonical (dryRun [d]) = some c →
      hitsOf (desired.map (fun d => dryRun [d])) (generateCMDBResourceKey c) ≠ 0 := by
    intro d hd c hc
    exact hitsOf_pos _ (dryRun [d]) c (List.mem_map.mpr ⟨d, hd, rfl⟩) hc
  have hnone : desired.filter (fun d => isNewItem (remoteFilter S1 p) (dryRun [d])) = [] := by
    rw [List.filter_eq_nil_iff]
    intro d hd hnew
    obtain ⟨c, hc, hall⟩ := (isNewItem_eq_true _ _).mp hnew
    by_cases hnew1 : isNewItem (remoteFilter S p) (dryRun [d]) = true
    · obtain ⟨c1, hc1, hall1⟩ := (isNewItem_eq_true _ _).mp hnew1
      rw [hc] at hc1
      simp only [Option.some.injEq] at hc1
      subst hc1
      have hk := hkey d hd c hc
      have hnotM : stored d ∉ toDeregister (remoteFilter S p)
          (desired.map (fun d => dryRun [d])) := by
        intro hmem
        exact hall1 _ ((mem_toDeregister _ _ _).mp hmem).1 hk.symm
      have hin : stored d ∈ S ++
          (desired.filter (fun d => isNewItem (remoteFilter S p) (dryRun [d]))).map stored :=
        List.mem_append_right _
          (List.mem_map.mpr ⟨d, List.mem_filter.mpr ⟨hd, hnew1⟩, rfl⟩)
      have hin1 : stored d ∈ S1 := (hfacts (stored d)).2.1 hin hnotM
      have hin2 : stored d ∈ remoteFilter S1 p :=
        (mem_remoteFilter _ _ _).mpr ⟨hin1, (hstored d hd c hc).2⟩
      exact hall _ hin2 hk.symm
    · have hex : ∃ b ∈ remoteFilter S p,
          generateCMDBResourceKey c = generateIAMResourceKey b := by
        by_contra hcon
        apply hnew1
        rw [isNewItem_eq_true]
        refine ⟨c, hc, fun b hb heq => hcon ⟨b, hb, heq⟩⟩
      obtain ⟨b, hb, hbk⟩ := hex
      have hbS := (mem_remoteFilter _ _ _).mp hb
      have hnotM : b ∉ toDeregister (remoteFilter S p)
          (desired.map (fun d => dryRun [d])) := by
        intro hmem
        have h0 := ((mem_toDeregister _ _ _).mp hmem).2
        rw [← hbk] at h0
        exact hhit d hd c hc h0
      have hin1 : b ∈ S1 := (hfacts b).2.1 (List.mem_append_left _ hbS.1) hnotM
      have hin2 : b ∈ remoteFilter S1 p := (mem_remoteFilter _ _ _).mpr ⟨hin1, hbS.2⟩
      exact hall _ hin2 hbk
  have hkeep : skipDeregister = false → desired ≠ [] →
      toDeregister (remoteFilter S1 p) (desired.map (fun d => dryRun [d])) = [] := by
    intro hskip hne
    unfold toDeregister
    rw [List.filter_eq_nil_iff]
    intro b hb h0
    have h0 : hitsOf (desired.map (fun d => dryRun [d])) (generateIAMResourceKey b) = 0 := by
      simpa using h0
    have hb1 := (mem_remoteFilter _ _ _).mp hb
    have hnotM := (hfacts b).2.2 hskip hne hb1.1
    rcases List.mem_append.mp ((hfacts b).1 hb1.1) with hS | hnew
    · exact hnotM ((mem_toDeregister _ _ _).mpr
        ⟨(mem_remoteFilter _ _ _).mpr ⟨hS, hb1.2⟩, h0⟩)
    · obtain ⟨d, hd, hdb⟩ := List.mem_map.mp hnew
      obtain ⟨hdd, hdnew⟩ := List.mem_filter.mp hd
      obtain ⟨c, hc, _⟩ := (isNewItem_eq_true _ _).mp hdnew
      rw [← hdb, hkey d hdd c hc] at h0
      exact hhit d hdd c hc h0
  refine ⟨by simp [hnone], ?_⟩
  cases hskip : skipDeregister with
  | true => simp
  | false =>
    by_cases hne : desired = []
    · simp [hne]
    · rw [hkeep hskip hne]
      simp

end Idempotence


/-- C11 (idempotence): against the truthful IAM, where listing returns the state, register
adds for each `d` the resource `stored d`, deregister removes the resources it is given
and the dry run is a fixed function of its arguments, assume that for every desired `d`
with exactly one canonical the resource `stored d` has the `(type, id)` path of that
canonical and a leaf id starting with `iamIDPrefix`. Then for every initial state, listing
attribute, desired list and `skipDeregister`, the second of two runs of `diffAndSync` with
the same arguments issues no register call and no deregister call. -/
theorem idempotent_against_truthful_iam {ρ : Type} (dryRun : List ρ → DryRunReply)
    (stored : ρ → BackendResource) (rel : String → Bool) (S : List BackendResource)
    (taskName : String) (ra : Option ρ) (iamIDPrefix : String) (desired : List ρ)
    (skipDeregister : Bool)
    (hstored : ∀ d ∈ desired, ∀ c, singleCanonical (dryRun [d]) = some c →
      layerPath (stored d) = idPath c ∧ LeafHasPrefix iamIDPrefix (stored d)) :
    registerCalls (diffAndSync (truthfulIAM dryRun stored) rel
        (diffAndSync (truthfulIAM dryRun stored) rel S taskName ra iamIDPrefix desired
          skipDeregister).state
        taskName ra iamIDPrefix desired skipDeregister).calls = [] ∧
    deregisterCalls (diffAndSync (truthfulIAM dryRun stored) rel
        (diffAndSync (truthfulIAM dryRun stored) rel S taskName ra iamIDPrefix desired
          skipDeregister).state
        taskName ra iamIDPrefix desired skipDeregister).calls = [] := by
  have hfirst : (diffAndSync (truthfulIAM dryRun stored) rel S taskName ra iamIDPrefix desired
      skipDeregister).state
      = (diffAndSyncCore (truthfulIAM dryRun stored) rel S taskName
          (remoteFilter S iamIDPrefix) iamIDPrefix desired skipDeregister).state := by
    rw [diffAndSync_of_listed _ rel S taskName ra iamIDPrefix desired skipDeregister rfl]
    rfl
  have hsecond := truthful_core_second_run dryRun stored rel S _ taskName iamIDPrefix desired
    skipDeregister hstored hfirst
  rw [diffAndSync_of_listed _ rel _ taskName ra iamIDPrefix desired skipDeregister rfl]
  simp only [registerCalls, deregisterCalls]
  exact hsecond


/-- Witness of C11: IAM holds hosts `1001` and `2000`, the filter is `"10"` and host `1000`
is desired. The first run registers host `1000` and deregisters host `1001`; the second
run issues no register and no deregister call. -/
theorem idempotent_against_truthful_iam_witness :
    (diffAndSync (truthfulIAM dryRunHosts hostBackend) relNone
        [hostBackend "1001", hostBackend "2000"] "task" none "10" ["1000"] false).calls
      = [Call.ListResources none, Call.DryRunRegisterResource ["1000"],
          Call.DryRunRegisterResource ["1000"], Call.RegisterResource ["1000"],
          Call.RawDeregisterResource ⟨"biz", "1"⟩ [hostBackend "1001"]] ∧
    (diffAndSync (truthfulIAM dryRunHosts hostBackend) relNone
        [hostBackend "1001", hostBackend "2000"] "task" none "10" ["1000"] false).state
      = [hostBackend "2000", hostBackend "1000"] ∧
    registerCalls (diffAndSync (truthfulIAM dryRunHosts hostBackend) relNone
        (diffAndSync (truthfulIAM dryRunHosts hostBackend) relNone
          [hostBackend "1001", hostBackend "2000"] "task" none "10" ["1000"] false).state
        "task" none "10" ["1000"] false).calls = [] ∧
    deregisterCalls (diffAndSync (truthfulIAM dryRunHosts hostBackend) relNone
        (diffAndSync (truthfulIAM dryRunHosts hostBackend) relNone
          [hostBackend "1001", hostBackend "2000"] "task" none "10" ["1000"] false).state
        "task" none "10" ["1000"] false).calls = [] :=
  have hstored : ∀ d ∈ ["1000"], ∀ c, singleCanonical (dryRunHosts [d]) = some c →
      layerPath (hostBackend d) = idPath c ∧ LeafHasPrefix "10" (hostBackend d) := by
    intro d hd c hc
    simp only [List.mem_singleton] at hd
    subst hd
    have hc2 : c = hostEntity "1000" := by
      simp only [singleCanonical, dryRunHosts, List.map_cons, List.map_nil,
        Option.some.injEq] at hc
      exact hc.symm
    subst hc2
    exact ⟨by decide, (leafHasPrefix_iff _ _).mpr ⟨_, rfl, by decide⟩⟩
  ⟨by decide, by decide,
    idempotent_against_truthful_iam dryRunHosts hostBackend relNone
      [hostBackend "1001", hostBackend "2000"] "task" none "10" ["1000"] false hstored⟩


end AuthSync
